import Mathlib

/-!
# A formal model of the Void language interpreter

This file embeds the core of the Void interpreter — its lexer
(`src/lexer.ts`), parser (`src/parser.ts`) and tree-walking evaluator
(`src/interpreter.ts`, re-exported through `src/tokens.ts`) — as
executable Lean definitions, and proves the behavioural properties
claimed by the specification.

Modelling conventions:

* JavaScript numbers are modelled by `ℚ`.  All arithmetic exercised by
  the theorems below is exact in IEEE doubles, so the rational model
  agrees with the host on every computation that appears in a theorem.
  Host-dependent float operations (`Math.sqrt`, `Math.random`) are
  modelled by an oracle stream carried in the evaluator state, and the
  host's float-to-string formatting of non-integral numbers is
  approximated by a finite decimal expansion.
* JavaScript object *identity* (used by `===` on lists and dicts) is
  modelled by an allocation id carried on every list and dict value;
  fresh ids are drawn from a counter in the evaluator state.
* The mutable environment chain is modelled as a list of scopes,
  innermost first; mutation is modelled by returning the updated chain.
* All recursion that mirrors an unbounded source-level loop takes an
  explicit fuel argument (structural recursion on `Nat`), so that every
  definition evaluates inside the kernel.  Fuel exhaustion is reported
  as a distinguished error that no theorem below ever hits.
-/

/-! ## Characters, digits and decimal rendering -/

/-- Decimal digit test, mirroring `Lexer.isDigit` (`ch >= "0" && ch <= "9"`). -/
def isDigitCh (c : Char) : Bool := '0' ≤ c && c ≤ '9'

/-- Letter-or-underscore test, mirroring `Lexer.isAlpha`. -/
def isAlphaCh (c : Char) : Bool :=
  ('a' ≤ c && c ≤ 'z') || ('A' ≤ c && c ≤ 'Z') || c = '_'

/-- Alphanumeric test, mirroring `Lexer.isAlphaNumeric`. -/
def isAlphaNumCh (c : Char) : Bool := isAlphaCh c || isDigitCh c

/-- Whitespace as recognised by JavaScript's string-to-number coercions. -/
def isSpaceCh (c : Char) : Bool := c = ' ' || c = '\t' || c = '\n' || c = '\r'

/-- The decimal digit character for `d` (meaningful for `d < 10`). -/
def digitToChar (d : Nat) : Char :=
  match d with
  | 0 => '0'
  | 1 => '1'
  | 2 => '2'
  | 3 => '3'
  | 4 => '4'
  | 5 => '5'
  | 6 => '6'
  | 7 => '7'
  | 8 => '8'
  | _ => '9'

/-- Numeric value of a digit character. -/
def charToDigit (c : Char) : Nat := c.toNat - 48

/-- Decimal digits of `n`, most significant first.  Fueled so that the
kernel can evaluate it; `natDigits` supplies sufficient fuel. -/
def natDigitsAux : Nat → Nat → List Char
  | 0, _ => []
  | fuel + 1, n =>
    if n < 10 then [digitToChar n]
    else natDigitsAux fuel (n / 10) ++ [digitToChar (n % 10)]

/-- Decimal digits of `n`, most significant first. -/
def natDigits (n : Nat) : List Char := natDigitsAux (n + 1) n

/-- Value of a digit string, most significant first. -/
def digitsVal (cs : List Char) : Nat :=
  cs.foldl (fun a c => a * 10 + charToDigit c) 0

/-- Decimal rendering of a natural number. -/
def natToString (n : Nat) : String := ⟨natDigits n⟩

/-- Exponential rendering `d[.ddd]e+k` of a positive integer, as
produced by JavaScript `String(n)` for integral doubles with
`|n| ≥ 10^21`: the significant digits with a point after the first
(trailing zeros dropped), then the decimal exponent.  The significand
is taken from the exact decimal digits; the host prints the shortest
round-trip form of the nearest double, which coincides on every value
exactly representable in a double (such as `10^21` itself). -/
def natExpString (m : Nat) : String :=
  let ds := natDigits m
  let exp := ds.length - 1
  let mant := (ds.reverse.dropWhile (fun c => c = '0')).reverse
  let mantStr : String :=
    match mant with
    | [] => "0"
    | [d] => ⟨[d]⟩
    | d :: rest => ⟨[d]⟩ ++ "." ++ ⟨rest⟩
  mantStr ++ "e+" ++ natToString exp

/-- Rendering of an integer as produced by JavaScript `String(n)` on an
integral double: pure decimal digits while `|n| < 10^21`, and
exponential notation (e.g. `String(1e21) = "1e+21"`) from `10^21` on. -/
def intToString (n : Int) : String :=
  if n.natAbs < 10 ^ 21 then
    ⟨if n < 0 then '-' :: natDigits n.natAbs else natDigits n.natAbs⟩
  else (if n < 0 then "-" else "") ++ natExpString n.natAbs

/-- Fractional decimal digits of `r` (for `0 ≤ r < 1`), at most `fuel`
digits, stopping when the expansion terminates. -/
def fracDigitsAux : Nat → ℚ → List Char
  | 0, _ => []
  | fuel + 1, r =>
    if r = 0 then []
    else
      let r10 := r * 10
      digitToChar r10.floor.toNat :: fracDigitsAux fuel (r10 - r10.floor)

/-- Rendering of a rational number in the style of JavaScript
`String(number)`.  Integers follow `intToString` (pure decimal below
`10^21`, exponential from there on, matching the host).  Non-integral
values get a decimal expansion truncated at 17 digits, approximating
the host's shortest-round-trip double formatting (and ignoring the
host's exponential form below `10^-6`), which the specification leaves
host-dependent; no theorem below stringifies a non-integral number. -/
def ratToString (q : ℚ) : String :=
  if q.den = 1 then intToString q.num
  else
    let sgn := if q < 0 then "-" else ""
    let a := |q|
    sgn ++ natToString a.floor.toNat ++ "." ++ ⟨fracDigitsAux 17 (a - a.floor)⟩

/-! ## JavaScript string-to-number conversions -/

/-- Value of a hexadecimal digit character, if it is one. -/
def hexDigitVal (c : Char) : Option Nat :=
  if isDigitCh c then some (charToDigit c)
  else if 'a' ≤ c && c ≤ 'f' then some (c.toNat - 87)
  else if 'A' ≤ c && c ≤ 'F' then some (c.toNat - 55)
  else none

/-- Value of a string of digits in base `b` via `digitVal`; `none` if any
character is not a digit of that base or the string is empty. -/
def radixVal (digitVal : Char → Option Nat) (b : Nat) (cs : List Char) : Option Nat :=
  match cs with
  | [] => none
  | _ =>
    cs.foldl
      (fun acc c =>
        match acc, digitVal c with
        | some a, some d => some (a * b + d)
        | _, _ => none)
      (some 0)

/-- Parse an unsigned decimal mantissa with optional fraction and
exponent, requiring the whole list to be consumed (JavaScript `Number`
semantics on a trimmed string). -/
def parseDecFull (cs : List Char) : Option ℚ :=
  let ip := cs.takeWhile isDigitCh
  let r1 := cs.dropWhile isDigitCh
  let fpr2 : List Char × List Char :=
    match r1 with
    | '.' :: rest => (rest.takeWhile isDigitCh, rest.dropWhile isDigitCh)
    | _ => ([], r1)
  let fp := fpr2.1
  let r2 := fpr2.2
  if ip.isEmpty && fp.isEmpty then none
  else
    let mant : ℚ := (digitsVal ip : ℚ) + (digitsVal fp : ℚ) / ((10 : ℚ) ^ fp.length)
    match r2 with
    | [] => some mant
    | e :: rest =>
      if e = 'e' || e = 'E' then
        let sr : Int × List Char :=
          match rest with
          | '-' :: r => (-1, r)
          | '+' :: r => (1, r)
          | _ => (1, rest)
        let ed := sr.2.takeWhile isDigitCh
        if ed.isEmpty || !(sr.2.dropWhile isDigitCh).isEmpty then none
        else some (mant * (10 : ℚ) ^ (sr.1 * (digitsVal ed : Int)))
      else none

/-- JavaScript `Number(string)`.  `none` stands for NaN.  A trimmed
empty string is `0`; `0x`/`0o`/`0b` prefixes are honoured (without a
sign); otherwise the whole trimmed string must be a decimal literal.
The host values `Infinity`/`-Infinity` fall outside the rational model
and are also mapped to `none`; no theorem below exercises them. -/
def jsStrToNum (s : String) : Option ℚ :=
  let cs := ((s.toList.dropWhile isSpaceCh).reverse.dropWhile isSpaceCh).reverse
  match cs with
  | [] => some 0
  | '-' :: rest => (parseDecFull rest).map (fun q => -q)
  | '+' :: rest => parseDecFull rest
  | '0' :: x :: rest =>
    if x = 'x' || x = 'X' then (radixVal hexDigitVal 16 rest).map (fun n => (n : ℚ))
    else if x = 'o' || x = 'O' then
      (radixVal (fun c => if '0' ≤ c && c ≤ '7' then some (charToDigit c) else none) 8 rest).map
        (fun n => (n : ℚ))
    else if x = 'b' || x = 'B' then
      (radixVal (fun c => if c = '0' || c = '1' then some (charToDigit c) else none) 2 rest).map
        (fun n => (n : ℚ))
    else parseDecFull cs
  | _ => parseDecFull cs

/-- JavaScript `parseInt(s, 10)`: skip leading whitespace, read an
optional sign and then the longest run of decimal digits; NaN (`none`)
if there is no digit. -/
def jsParseIntChars (cs0 : List Char) : Option Int :=
  let cs := cs0.dropWhile isSpaceCh
  let core : List Char → Option Nat := fun l =>
    let ds := l.takeWhile isDigitCh
    if ds.isEmpty then none else some (digitsVal ds)
  match cs with
  | '-' :: rest => (core rest).map (fun n => -(n : Int))
  | '+' :: rest => (core rest).map (fun n => (n : Int))
  | _ => (core cs).map (fun n => (n : Int))

/-- JavaScript `parseFloat(s)`: longest valid float prefix after
optional whitespace and sign; a malformed exponent suffix is ignored
rather than rejected. -/
def jsParseFloatChars (cs0 : List Char) : Option ℚ :=
  let cs1 := cs0.dropWhile isSpaceCh
  let sgncs : ℚ × List Char :=
    match cs1 with
    | '-' :: r => (-1, r)
    | '+' :: r => (1, r)
    | _ => (1, cs1)
  let cs := sgncs.2
  let ip := cs.takeWhile isDigitCh
  let r1 := cs.dropWhile isDigitCh
  let fpr2 : List Char × List Char :=
    match r1 with
    | '.' :: rest => (rest.takeWhile isDigitCh, rest.dropWhile isDigitCh)
    | _ => ([], r1)
  let fp := fpr2.1
  let r2 := fpr2.2
  if ip.isEmpty && fp.isEmpty then none
  else
    let mant : ℚ := (digitsVal ip : ℚ) + (digitsVal fp : ℚ) / ((10 : ℚ) ^ fp.length)
    let withExp : ℚ :=
      match r2 with
      | e :: rest =>
        if e = 'e' || e = 'E' then
          let sr : Int × List Char :=
            match rest with
            | '-' :: r => (-1, r)
            | '+' :: r => (1, r)
            | _ => (1, rest)
          let ed := sr.2.takeWhile isDigitCh
          if ed.isEmpty then mant else mant * (10 : ℚ) ^ (sr.1 * (digitsVal ed : Int))
        else mant
      | [] => mant
    some (sgncs.1 * withExp)

/-! ## Runtime values

A runtime value mirrors the interpreter's `VoidValue` union
(`string | number | boolean | null | VoidValue[] | VoidDict`).  A
`VoidDict` is the pair of parallel `keys`/`values` arrays from the
source.  Lists and dicts additionally carry the allocation id that
models JavaScript reference identity for `===`. -/

inductive VoidValue where
  | vnull
  | vbool (b : Bool)
  | vnum (q : ℚ)
  | vstr (s : String)
  | vlist (id : Nat) (elems : List VoidValue)
  | vdict (id : Nat) (keys : List VoidValue) (vals : List VoidValue)

open VoidValue

/-- The JavaScript `typeof` of a value (`typeof null` is `"object"`,
as are arrays and dict objects). -/
def jsTypeof : VoidValue → String
  | vnull => "object"
  | vbool _ => "boolean"
  | vnum _ => "number"
  | vstr _ => "string"
  | vlist _ _ => "object"
  | vdict _ _ _ => "object"

/-- JavaScript strict equality `l === r` for operands of equal
`typeof`: payload equality for primitives, reference identity
(modelled by the allocation id) for objects, and `false` across
distinct object shapes (e.g. `null === []`). -/
def strictEq : VoidValue → VoidValue → Bool
  | vnull, vnull => true
  | vbool a, vbool b => a == b
  | vnum a, vnum b => decide (a = b)
  | vstr a, vstr b => a == b
  | vlist i _, vlist j _ => i == j
  | vdict i _ _, vdict j _ _ => i == j
  | _, _ => false

/-! ### stringify and the `String(...)` coercion -/

mutual

/-- `Interpreter.stringify`: `null`/bools by keyword, lists as
`[e1, e2, …]`, dicts as `\x7bk1:v1, …\x7d` in insertion order, numbers and
strings via the host `String(...)` rendering. -/
def stringify : VoidValue → String
  | vnull => "null"
  | vbool b => if b then "true" else "false"
  | vnum q => ratToString q
  | vstr s => s
  | vlist _ es => "[" ++ String.intercalate ", " (stringifyList es) ++ "]"
  | vdict _ ks vs =>
    "\x7b" ++
      String.intercalate ", "
        (List.zipWith (fun a b => a ++ ":" ++ b) (stringifyList ks) (stringifyList vs)) ++
      "\x7d"

/-- `stringify` mapped over a list (the `value.map(v => this.stringify(v))`
of the source). -/
def stringifyList : List VoidValue → List String
  | [] => []
  | v :: rest => stringify v :: stringifyList rest

end

mutual

/-- The JavaScript `String(v)` coercion (used by `toInt`, `toFloat`,
`length`, `upper`, `lower`, `trim`, `contains` and template
interpolation): arrays join their elements with `","` rendering `null`
as the empty string, plain objects render as `[object Object]`. -/
def jsString : VoidValue → String
  | vnull => "null"
  | vbool b => if b then "true" else "false"
  | vnum q => ratToString q
  | vstr s => s
  | vlist _ es => String.intercalate "," (jsStringElems es)
  | vdict _ _ _ => "[object Object]"

/-- Element rendering for the array `join`. -/
def jsStringElems : List VoidValue → List String
  | [] => []
  | vnull :: rest => "" :: jsStringElems rest
  | v :: rest => jsString v :: jsStringElems rest

end

/-- `Interpreter.isTruthy`. -/
def isTruthy : VoidValue → Bool
  | vnull => false
  | vbool b => b
  | vnum q => decide (q ≠ 0)
  | vstr s => decide (s.length > 0)
  | vlist _ es => decide (es.length > 0)
  | vdict _ ks _ => decide (ks.length > 0)

/-- `Interpreter.toNumber`: numbers pass through, strings go through
`Number(...)` and throw on NaN, booleans map to 1/0, and every other
value (null, lists, dicts) silently becomes `0`. -/
def toNumber : VoidValue → Except String ℚ
  | vnum q => .ok q
  | vstr s =>
    match jsStrToNum s with
    | some q => .ok q
    | none => .error ("[Runtime Error] Невозможно преобразовать \x27" ++ s ++ "\x27 в число.")
  | vbool b => .ok (if b then 1 else 0)
  | _ => .ok 0

/-- `typeof v` is `boolean` or `number`. -/
def isBoolOrNum : VoidValue → Bool
  | vbool _ => true
  | vnum _ => true
  | _ => false

/-- `Interpreter.areEqual`: same `typeof` compares strictly; a
bool/number mix compares via `toNumber`; anything else compares the
`stringify` forms. -/
def areEqual (l r : VoidValue) : Bool :=
  if jsTypeof l = jsTypeof r then strictEq l r
  else if isBoolOrNum l && isBoolOrNum r then
    match toNumber l, toNumber r with
    | .ok a, .ok b => decide (a = b)
    | _, _ => false
  else stringify l == stringify r

/-- The JavaScript `Number(v)` coercion used by `castValue`
(`none` stands for NaN): `null` is 0, booleans are 1/0, strings parse
as number literals, arrays coerce through their string form, plain
objects are NaN. -/
def jsNumberCoerce : VoidValue → Option ℚ
  | vnull => some 0
  | vbool b => some (if b then 1 else 0)
  | vnum q => some q
  | vstr s => jsStrToNum s
  | vlist id es => jsStrToNum (jsString (vlist id es))
  | vdict _ _ _ => none

/-- `Interpreter.castValue`: scalar coercion applied on declaration and
assignment.  `int` floors the numeric coercion, `float` keeps it,
`bool` takes truthiness, `string` stringifies; NaN is fatal; list/dict
types fall through unchanged. -/
def castValue (value : VoidValue) (type : String) (varName : String) : Except String VoidValue :=
  match type with
  | "string" => .ok (vstr (stringify value))
  | "int" =>
    match jsNumberCoerce value with
    | some n => .ok (vnum (⌊n⌋ : ℤ))
    | none =>
      .error ("[Runtime Error] Невозможно преобразовать \x27" ++ jsString value ++
        "\x27 в int для переменной \x27" ++ varName ++ "\x27.")
  | "float" =>
    match jsNumberCoerce value with
    | some n => .ok (vnum n)
    | none =>
      .error ("[Runtime Error] Невозможно преобразовать \x27" ++ jsString value ++
        "\x27 в float для переменной \x27" ++ varName ++ "\x27.")
  | "bool" => .ok (vbool (isTruthy value))
  | _ => .ok value

/-! ### Dict primitives -/

/-- `Interpreter.findDictKey`: index of the first key equal (in the
`areEqual` sense) to `k`; the source's `-1` is modelled by `none`. -/
def findDictKey (keys : List VoidValue) (k : VoidValue) : Option Nat :=
  match keys with
  | [] => none
  | k0 :: rest => if areEqual k0 k then some 0 else (findDictKey rest k).map (· + 1)

/-- The dict mutation performed by `add:dict` (`executeMethodAdd`): if
a key equal to `k` exists, overwrite its value in place; otherwise push
`(k, v)` at the end of both parallel arrays. -/
def dictAdd (keys vals : List VoidValue) (k v : VoidValue) : List VoidValue × List VoidValue :=
  match findDictKey keys k with
  | some i => (keys, vals.set i v)
  | none => (keys ++ [k], vals ++ [v])

/-- Iterated `add:dict`. -/
def dictAddMany (keys vals : List VoidValue) : List (VoidValue × VoidValue) → List VoidValue × List VoidValue
  | [] => (keys, vals)
  | (k, v) :: ops =>
    let kv := dictAdd keys vals k v
    dictAddMany kv.1 kv.2 ops

/-- No two keys at distinct positions are `areEqual`. -/
def keysPairwiseDistinct : List VoidValue → Bool
  | [] => true
  | k :: ks => ks.all (fun k2 => !areEqual k k2) && keysPairwiseDistinct ks

/-- Number of distinct keys: each group of mutually `areEqual` keys is
counted once (at its last occurrence). -/
def countDistinct : List VoidValue → Nat
  | [] => 0
  | k :: ks => (if ks.any (fun k2 => areEqual k k2) then 0 else 1) + countDistinct ks

/-! ## The environment chain

`Environment` is a map from names to `(declared type, current value)`
bindings plus a parent pointer.  The chain is modelled as a list of
scopes, innermost first; an absent parent is the empty tail. -/

/-- A binding, mirroring the source `Variable` record. -/
structure Variable where
  type : String
  value : VoidValue

/-- One scope's name-to-binding map (insertion-ordered, names unique). -/
abbrev Scope := List (String × Variable)

/-- `[Runtime Error]` for an unknown identifier. -/
def undefinedVarMsg (n : String) : String :=
  "[Runtime Error] Переменная \x27" ++ n ++ "\x27 не определена."

/-- `[Runtime Error]` for redefinition in the same scope. -/
def redefinedVarMsg (n : String) : String :=
  "[Runtime Error] Переменная \x27" ++ n ++ "\x27 уже определена."

/-- `Environment.define`: fails iff the name is already bound in the
*current* scope, otherwise inserts there. -/
def envDefine (env : List Scope) (n ty : String) (v : VoidValue) : Except String (List Scope) :=
  match env with
  | [] => .error (undefinedVarMsg n)
  | sc :: rest =>
    if (sc.lookup n).isSome then .error (redefinedVarMsg n)
    else .ok ((sc ++ [(n, ⟨ty, v⟩)]) :: rest)

/-- `Environment.get`: nearest binding along the parent chain; fails if
the name is bound nowhere. -/
def envGet (env : List Scope) (n : String) : Except String Variable :=
  match env with
  | [] => .error (undefinedVarMsg n)
  | sc :: rest =>
    match sc.lookup n with
    | some v => .ok v
    | none => envGet rest n

/-- Overwrite the value of `n`'s binding inside one scope, keeping its
declared type (the source mutates `vbind.value` in place). -/
def scopeSetValue (sc : Scope) (n : String) (v : VoidValue) : Scope :=
  sc.map (fun p => if p.1 = n then (p.1, ⟨p.2.type, v⟩) else p)

/-- `Environment.set`: mutate the nearest binding along the chain;
fails if the name is bound nowhere. -/
def envSet (env : List Scope) (n : String) (v : VoidValue) : Except String (List Scope) :=
  match env with
  | [] => .error (undefinedVarMsg n)
  | sc :: rest =>
    if (sc.lookup n).isSome then .ok (scopeSetValue sc n v :: rest)
    else (envSet rest n v).map (fun r => sc :: r)

/-- `Environment.has`: name bound somewhere along the chain. -/
def envHas (env : List Scope) (n : String) : Bool :=
  match env with
  | [] => false
  | sc :: rest => (sc.lookup n).isSome || envHas rest n

/-! ## Tokens and the lexer -/

/-- Token kinds, mirroring the `TokenType` enum. -/
inductive TokenType where
  | VOID_APP
  | VOID_END
  | USING
  | STYLE
  | MAIN
  | CREATE
  | ECHO
  | WRITE
  | IF
  | ELSE
  | WHILE
  | FOR
  | RAND
  | ADD
  | DELETE
  | CLEAR
  | TYPE_STRING
  | TYPE_INT
  | TYPE_FLOAT
  | TYPE_BOOL
  | TYPE_LIST
  | TYPE_DICT
  | STRING_LITERAL
  | INT_LITERAL
  | FLOAT_LITERAL
  | BOOL_LITERAL
  | IDENTIFIER
  | ASSIGN
  | PLUS
  | MINUS
  | MULTIPLY
  | DIVIDE
  | MODULO
  | POWER
  | EQUALS
  | NOT_EQUALS
  | LESS
  | GREATER
  | LESS_EQ
  | GREATER_EQ
  | AND
  | OR
  | NOT
  | LPAREN
  | RPAREN
  | LBRACE
  | RBRACE
  | LBRACKET
  | RBRACKET
  | SEMICOLON
  | DOT
  | COMMA
  | COLON
  | EOF
  deriving DecidableEq

/-- A token `(kind, lexeme, line, column)`. -/
structure Token where
  type : TokenType
  value : String
  line : Nat
  column : Nat
  deriving DecidableEq

/-- `createToken`. -/
def createToken (type : TokenType) (value : String) (line column : Nat) : Token :=
  ⟨type, value, line, column⟩

/-- `Lexer.error`: fatal message with position. -/
def lexErrMsg (msg : String) (line col : Nat) : String :=
  "[Lexer Error] " ++ msg ++ " (строка " ++ natToString line ++
    ", столбец " ++ natToString col ++ ")"

/-- The keyword map of the lexer (`true`/`false` lex as bool literals). -/
def keywordType (s : String) : Option TokenType :=
  if s = "using" then some .USING
  else if s = "style" then some .STYLE
  else if s = "main" then some .MAIN
  else if s = "echo" then some .ECHO
  else if s = "write" then some .WRITE
  else if s = "if" then some .IF
  else if s = "else" then some .ELSE
  else if s = "while" then some .WHILE
  else if s = "for" then some .FOR
  else if s = "string" then some .TYPE_STRING
  else if s = "int" then some .TYPE_INT
  else if s = "float" then some .TYPE_FLOAT
  else if s = "bool" then some .TYPE_BOOL
  else if s = "true" then some .BOOL_LITERAL
  else if s = "false" then some .BOOL_LITERAL
  else if s = "rand" then some .RAND
  else if s = "list" then some .TYPE_LIST
  else if s = "dict" then some .TYPE_DICT
  else if s = "add" then some .ADD
  else if s = "delete" then some .DELETE
  else if s = "clear" then some .CLEAR
  else none

/-- Position update of `Lexer.advance`: a newline bumps the line and
resets the column to 1. -/
def advancePos (ch : Char) (l c : Nat) : Nat × Nat :=
  if ch = '\n' then (l + 1, 1) else (l, c + 1)

/-- The left-brace character, written via its code point. -/
def lbraceChar : Char := Char.ofNat 123

/-- The right-brace character, written via its code point. -/
def rbraceChar : Char := Char.ofNat 125

/-- `Lexer.readString` after the opening quote: collect characters up
to the closing quote, translating `\n \t \r` and mapping any other
escaped character to itself; running out of input is fatal at the
string's start position. -/
def readStringAux (quote : Char) (startLine startCol : Nat) :
    List Char → Nat → Nat → List Char → Except String (String × List Char × Nat × Nat)
  | [], _, _, _ => .error (lexErrMsg "Незакрытая строка" startLine startCol)
  | '\\' :: rest, l, c, acc =>
    match rest with
    | [] => .error (lexErrMsg "Незакрытая строка" startLine startCol)
    | e :: rest' =>
      let lc := advancePos '\\' l c
      let lc2 := advancePos e lc.1 lc.2
      let ech : Char :=
        if e = 'n' then '\n' else if e = 't' then '\t' else if e = 'r' then '\r' else e
      readStringAux quote startLine startCol rest' lc2.1 lc2.2 (acc ++ [ech])
  | ch :: rest, l, c, acc =>
    let lc := advancePos ch l c
    if ch = quote then .ok (⟨acc⟩, rest, lc.1, lc.2)
    else readStringAux quote startLine startCol rest lc.1 lc.2 (acc ++ [ch])

/-- `Lexer.readNumber` from the current position: longest digit run,
then a fractional part only if a `.` is directly followed by a digit.
Returns the lexeme, the float flag and the remaining input. -/
def readNumberFrom (cs : List Char) : List Char × Bool × List Char :=
  let ip := cs.takeWhile isDigitCh
  let r := cs.dropWhile isDigitCh
  match r with
  | '.' :: d :: rest =>
    if isDigitCh d then
      (ip ++ '.' :: (d :: rest).takeWhile isDigitCh, true, (d :: rest).dropWhile isDigitCh)
    else (ip, false, r)
  | _ => (ip, false, r)

/-- `Lexer.skipMultiLineComment` after the opening `#*`: consume up to
and including the closing `*#`; reaching the end of input is fatal at
the current position. -/
def skipMLAux : List Char → Nat → Nat → Except String (List Char × Nat × Nat)
  | [], l, c => .error (lexErrMsg "Незакрытый многострочный комментарий" l c)
  | '*' :: '#' :: rest, l, c => .ok (rest, l, c + 2)
  | ch :: rest, l, c =>
    let lc := advancePos ch l c
    skipMLAux rest lc.1 lc.2

/-- `Lexer.tokenize`, one dispatch step per source iteration: skip
whitespace and comments, read directives, strings, numbers and
identifiers, prefer two-character operators over one-character ones,
and fail on any other character.  The fuel argument only bounds the
number of iterations; `tokenize` supplies enough for any input. -/
def lexLoop : Nat → List Char → Nat → Nat → Except String (List Token)
  | 0, _, _, _ => .error "[Model] lexer fuel exhausted"
  | _ + 1, [], l, c => .ok [createToken .EOF "" l c]
  | fuel + 1, ch :: rest, l, c =>
    if ch = ' ' || ch = '\t' || ch = '\r' then lexLoop fuel rest l (c + 1)
    else if ch = '\n' then lexLoop fuel rest (l + 1) 1
    else if ch = '/' && rest.head? = some '/' then
      let body := rest.drop 1
      let k := (body.takeWhile (fun x => !(x = '\n'))).length
      lexLoop fuel (body.dropWhile (fun x => !(x = '\n'))) l (c + 2 + k)
    else if ch = '#' && rest.head? = some '*' then
      match skipMLAux (rest.drop 1) l (c + 2) with
      | .error e => .error e
      | .ok (rest', l', c') => lexLoop fuel rest' l' c'
    else if ch = '@' then
      let ident := rest.takeWhile isAlphaNumCh
      let name : String := ⟨'@' :: ident⟩
      let rest' := rest.dropWhile isAlphaNumCh
      let c' := c + 1 + ident.length
      if name = "@VoidApp" then
        (lexLoop fuel rest' l c').map (createToken .VOID_APP name l c :: ·)
      else if name = "@VoidEnd" then
        (lexLoop fuel rest' l c').map (createToken .VOID_END name l c :: ·)
      else .error (lexErrMsg ("Неизвестная директива: " ++ name) l c)
    else if ch = '"' || ch = '\'' then
      let lc := advancePos ch l c
      match readStringAux ch l c rest lc.1 lc.2 [] with
      | .error e => .error e
      | .ok (val, rest', l', c') =>
        (lexLoop fuel rest' l' c').map (createToken .STRING_LITERAL val l c :: ·)
    else if isDigitCh ch then
      let r := readNumberFrom (ch :: rest)
      (lexLoop fuel r.2.2 l (c + r.1.length)).map
        (createToken (if r.2.1 then .FLOAT_LITERAL else .INT_LITERAL) ⟨r.1⟩ l c :: ·)
    else if isAlphaCh ch then
      let idchars := (ch :: rest).takeWhile isAlphaNumCh
      let rest' := (ch :: rest).dropWhile isAlphaNumCh
      let c' := c + idchars.length
      let name : String := ⟨idchars⟩
      if name = "create" && rest'.head? = some ':' then
        (lexLoop fuel (rest'.drop 1) l (c' + 1)).map (createToken .CREATE "create:" l c :: ·)
      else
        match keywordType name with
        | some kt => (lexLoop fuel rest' l c').map (createToken kt name l c :: ·)
        | none => (lexLoop fuel rest' l c').map (createToken .IDENTIFIER name l c :: ·)
    else if ch = '*' && rest.head? = some '*' then
      (lexLoop fuel (rest.drop 1) l (c + 2)).map (createToken .POWER "**" l c :: ·)
    else if ch = '=' && rest.head? = some '=' then
      (lexLoop fuel (rest.drop 1) l (c + 2)).map (createToken .EQUALS "==" l c :: ·)
    else if ch = '!' && rest.head? = some '=' then
      (lexLoop fuel (rest.drop 1) l (c + 2)).map (createToken .NOT_EQUALS "!=" l c :: ·)
    else if ch = '<' && rest.head? = some '=' then
      (lexLoop fuel (rest.drop 1) l (c + 2)).map (createToken .LESS_EQ "<=" l c :: ·)
    else if ch = '>' && rest.head? = some '=' then
      (lexLoop fuel (rest.drop 1) l (c + 2)).map (createToken .GREATER_EQ ">=" l c :: ·)
    else if ch = '&' && rest.head? = some '&' then
      (lexLoop fuel (rest.drop 1) l (c + 2)).map (createToken .AND "&&" l c :: ·)
    else if ch = '|' && rest.head? = some '|' then
      (lexLoop fuel (rest.drop 1) l (c + 2)).map (createToken .OR "||" l c :: ·)
    else if ch = '+' then (lexLoop fuel rest l (c + 1)).map (createToken .PLUS "+" l c :: ·)
    else if ch = '-' then (lexLoop fuel rest l (c + 1)).map (createToken .MINUS "-" l c :: ·)
    else if ch = '*' then (lexLoop fuel rest l (c + 1)).map (createToken .MULTIPLY "*" l c :: ·)
    else if ch = '/' then (lexLoop fuel rest l (c + 1)).map (createToken .DIVIDE "/" l c :: ·)
    else if ch = '%' then (lexLoop fuel rest l (c + 1)).map (createToken .MODULO "%" l c :: ·)
    else if ch = '=' then (lexLoop fuel rest l (c + 1)).map (createToken .ASSIGN "=" l c :: ·)
    else if ch = '<' then (lexLoop fuel rest l (c + 1)).map (createToken .LESS "<" l c :: ·)
    else if ch = '>' then (lexLoop fuel rest l (c + 1)).map (createToken .GREATER ">" l c :: ·)
    else if ch = '!' then (lexLoop fuel rest l (c + 1)).map (createToken .NOT "!" l c :: ·)
    else if ch = '(' then (lexLoop fuel rest l (c + 1)).map (createToken .LPAREN "(" l c :: ·)
    else if ch = ')' then (lexLoop fuel rest l (c + 1)).map (createToken .RPAREN ")" l c :: ·)
    else if ch = lbraceChar then
      (lexLoop fuel rest l (c + 1)).map (createToken .LBRACE "\x7b" l c :: ·)
    else if ch = rbraceChar then
      (lexLoop fuel rest l (c + 1)).map (createToken .RBRACE "\x7d" l c :: ·)
    else if ch = '[' then (lexLoop fuel rest l (c + 1)).map (createToken .LBRACKET "[" l c :: ·)
    else if ch = ']' then (lexLoop fuel rest l (c + 1)).map (createToken .RBRACKET "]" l c :: ·)
    else if ch = '.' then (lexLoop fuel rest l (c + 1)).map (createToken .DOT "." l c :: ·)
    else if ch = ';' then (lexLoop fuel rest l (c + 1)).map (createToken .SEMICOLON ";" l c :: ·)
    else if ch = ',' then (lexLoop fuel rest l (c + 1)).map (createToken .COMMA "," l c :: ·)
    else if ch = ':' then (lexLoop fuel rest l (c + 1)).map (createToken .COLON ":" l c :: ·)
    else .error (lexErrMsg ("Неожиданный символ: \x27" ++ ⟨[ch]⟩ ++ "\x27") l c)

/-- `Lexer.tokenize` on a whole source string.  One unit of fuel per
iteration of the source loop; every iteration consumes at least one
character, so `length + 1` always suffices. -/
def tokenize (src : String) : Except String (List Token) :=
  lexLoop (src.length + 1) src.toList 1 1

/-! ## The AST and the parser -/

/-- AST nodes, one constructor per source node kind.  The numeric
payloads of `NumberLiteral`/`FloatLiteral` are the parsed host numbers. -/
inductive AST where
  | program (appName : String) (style : Option String) (body : List AST)
  | mainNode (body : AST)
  | block (statements : List AST)
  | echoStmt (expressions : List AST)
  | writeExpr (prompt : AST)
  | createVar (varType name : String) (value : AST)
  | assignVar (name : String) (value : AST)
  | ifStmt (condition thenBranch : AST) (elseBranch : Option AST)
  | whileStmt (condition body : AST)
  | forStmt (init : Option AST) (condition : AST) (update : Option AST) (body : AST)
  | binaryExpr (operator : String) (left right : AST)
  | unaryExpr (operator : String) (operand : AST)
  | numberLit (value : ℚ)
  | floatLit (value : ℚ)
  | stringLit (value : String)
  | boolLit (value : Bool)
  | ident (name : String)
  | funcCall (name : String) (args : List AST)
  | randCall (lo hi : AST)
  | listLit (elements : List AST)
  | dictLit (entries : List (AST × AST))
  | indexAccess (object index : AST)
  | methodCall (object method collectionType : String) (args : List AST)

/-- The string value of a `TokenType` (the TS enum value), used in
parser diagnostics. -/
def tokTypeName : TokenType → String
  | .VOID_APP => "VOID_APP"
  | .VOID_END => "VOID_END"
  | .USING => "USING"
  | .STYLE => "STYLE"
  | .MAIN => "MAIN"
  | .CREATE => "CREATE"
  | .ECHO => "ECHO"
  | .WRITE => "WRITE"
  | .IF => "IF"
  | .ELSE => "ELSE"
  | .WHILE => "WHILE"
  | .FOR => "FOR"
  | .RAND => "RAND"
  | .ADD => "ADD"
  | .DELETE => "DELETE"
  | .CLEAR => "CLEAR"
  | .TYPE_STRING => "TYPE_STRING"
  | .TYPE_INT => "TYPE_INT"
  | .TYPE_FLOAT => "TYPE_FLOAT"
  | .TYPE_BOOL => "TYPE_BOOL"
  | .TYPE_LIST => "TYPE_LIST"
  | .TYPE_DICT => "TYPE_DICT"
  | .STRING_LITERAL => "STRING_LITERAL"
  | .INT_LITERAL => "INT_LITERAL"
  | .FLOAT_LITERAL => "FLOAT_LITERAL"
  | .BOOL_LITERAL => "BOOL_LITERAL"
  | .IDENTIFIER => "IDENTIFIER"
  | .ASSIGN => "ASSIGN"
  | .PLUS => "PLUS"
  | .MINUS => "MINUS"
  | .MULTIPLY => "MULTIPLY"
  | .DIVIDE => "DIVIDE"
  | .MODULO => "MODULO"
  | .POWER => "POWER"
  | .EQUALS => "EQUALS"
  | .NOT_EQUALS => "NOT_EQUALS"
  | .LESS => "LESS"
  | .GREATER => "GREATER"
  | .LESS_EQ => "LESS_EQ"
  | .GREATER_EQ => "GREATER_EQ"
  | .AND => "AND"
  | .OR => "OR"
  | .NOT => "NOT"
  | .LPAREN => "LPAREN"
  | .RPAREN => "RPAREN"
  | .LBRACE => "LBRACE"
  | .RBRACE => "RBRACE"
  | .LBRACKET => "LBRACKET"
  | .RBRACKET => "RBRACKET"
  | .SEMICOLON => "SEMICOLON"
  | .DOT => "DOT"
  | .COMMA => "COMMA"
  | .COLON => "COLON"
  | .EOF => "EOF"

/-- `Parser.current`: the token at the cursor, or a synthetic EOF token
at line 0, column 0 past the end. -/
def curTok (toks : List Token) : Token :=
  match toks with
  | t :: _ => t
  | [] => createToken .EOF "" 0 0

/-- `Parser.error`: fatal message with the offending token's position. -/
def parseErrMsg (msg : String) (t : Token) : String :=
  "[Parser Error] " ++ msg ++ " (строка " ++ natToString t.line ++
    ", столбец " ++ natToString t.column ++ ")"

/-- `Parser.expect`: consume a token of the given type or fail with the
given (or the default) message. -/
def expectTok (ty : TokenType) (msg : Option String) (toks : List Token) :
    Except String (Token × List Token) :=
  let t := curTok toks
  if t.type = ty then .ok (t, toks.drop 1)
  else
    .error (parseErrMsg
      (msg.getD ("Ожидался токен " ++ tokTypeName ty ++ ", получен " ++
        tokTypeName t.type ++ " (\x27" ++ t.value ++ "\x27)")) t)

/-- `Parser.check`. -/
def checkTok (ty : TokenType) (toks : List Token) : Bool :=
  (curTok toks).type = ty

/-- Fuel-exhaustion marker for the parser; `parseVoid` always supplies
enough fuel, and no theorem below hits it. -/
def parseFuelErr : String := "[Model] parser fuel exhausted"

mutual

/-- `Parser.parseExpression`. -/
def parseExpression : Nat → List Token → Except String (AST × List Token)
  | 0, _ => .error parseFuelErr
  | fuel + 1, toks => parseOr fuel toks

/-- `Parser.parseOr` (`||`, left-associative). -/
def parseOr : Nat → List Token → Except String (AST × List Token)
  | 0, _ => .error parseFuelErr
  | fuel + 1, toks => do
    let (l, t1) ← parseAnd fuel toks
    parseOrLoop fuel l t1

/-- The `while (check OR)` loop of `parseOr`. -/
def parseOrLoop : Nat → AST → List Token → Except String (AST × List Token)
  | 0, _, _ => .error parseFuelErr
  | fuel + 1, left, toks =>
    if checkTok .OR toks then do
      let op := (curTok toks).value
      let (r, t1) ← parseAnd fuel (toks.drop 1)
      parseOrLoop fuel (.binaryExpr op left r) t1
    else .ok (left, toks)

/-- `Parser.parseAnd` (`&&`, left-associative). -/
def parseAnd : Nat → List Token → Except String (AST × List Token)
  | 0, _ => .error parseFuelErr
  | fuel + 1, toks => do
    let (l, t1) ← parseEquality fuel toks
    parseAndLoop fuel l t1

/-- The `while (check AND)` loop of `parseAnd`. -/
def parseAndLoop : Nat → AST → List Token → Except String (AST × List Token)
  | 0, _, _ => .error parseFuelErr
  | fuel + 1, left, toks =>
    if checkTok .AND toks then do
      let op := (curTok toks).value
      let (r, t1) ← parseEquality fuel (toks.drop 1)
      parseAndLoop fuel (.binaryExpr op left r) t1
    else .ok (left, toks)

/-- `Parser.parseEquality` (`==` `!=`, left-associative). -/
def parseEquality : Nat → List Token → Except String (AST × List Token)
  | 0, _ => .error parseFuelErr
  | fuel + 1, toks => do
    let (l, t1) ← parseComparison fuel toks
    parseEqualityLoop fuel l t1

/-- The operator loop of `parseEquality`. -/
def parseEqualityLoop : Nat → AST → List Token → Except String (AST × List Token)
  | 0, _, _ => .error parseFuelErr
  | fuel + 1, left, toks =>
    if checkTok .EQUALS toks || checkTok .NOT_EQUALS toks then do
      let op := (curTok toks).value
      let (r, t1) ← parseComparison fuel (toks.drop 1)
      parseEqualityLoop fuel (.binaryExpr op left r) t1
    else .ok (left, toks)

/-- `Parser.parseComparison` (`<` `>` `<=` `>=`, left-associative). -/
def parseComparison : Nat → List Token → Except String (AST × List Token)
  | 0, _ => .error parseFuelErr
  | fuel + 1, toks => do
    let (l, t1) ← parseAddition fuel toks
    parseComparisonLoop fuel l t1

/-- The operator loop of `parseComparison`. -/
def parseComparisonLoop : Nat → AST → List Token → Except String (AST × List Token)
  | 0, _, _ => .error parseFuelErr
  | fuel + 1, left, toks =>
    if checkTok .LESS toks || checkTok .GREATER toks ||
        checkTok .LESS_EQ toks || checkTok .GREATER_EQ toks then do
      let op := (curTok toks).value
      let (r, t1) ← parseAddition fuel (toks.drop 1)
      parseComparisonLoop fuel (.binaryExpr op left r) t1
    else .ok (left, toks)

/-- `Parser.parseAddition` (`+` `-`, left-associative). -/
def parseAddition : Nat → List Token → Except String (AST × List Token)
  | 0, _ => .error parseFuelErr
  | fuel + 1, toks => do
    let (l, t1) ← parseMultiplication fuel toks
    parseAdditionLoop fuel l t1

/-- The operator loop of `parseAddition`. -/
def parseAdditionLoop : Nat → AST → List Token → Except String (AST × List Token)
  | 0, _, _ => .error parseFuelErr
  | fuel + 1, left, toks =>
    if checkTok .PLUS toks || checkTok .MINUS toks then do
      let op := (curTok toks).value
      let (r, t1) ← parseMultiplication fuel (toks.drop 1)
      parseAdditionLoop fuel (.binaryExpr op left r) t1
    else .ok (left, toks)

/-- `Parser.parseMultiplication` (`*` `/` `%`, left-associative). -/
def parseMultiplication : Nat → List Token → Except String (AST × List Token)
  | 0, _ => .error parseFuelErr
  | fuel + 1, toks => do
    let (l, t1) ← parsePower fuel toks
    parseMultiplicationLoop fuel l t1

/-- The operator loop of `parseMultiplication`. -/
def parseMultiplicationLoop : Nat → AST → List Token → Except String (AST × List Token)
  | 0, _, _ => .error parseFuelErr
  | fuel + 1, left, toks =>
    if checkTok .MULTIPLY toks || checkTok .DIVIDE toks || checkTok .MODULO toks then do
      let op := (curTok toks).value
      let (r, t1) ← parsePower fuel (toks.drop 1)
      parseMultiplicationLoop fuel (.binaryExpr op left r) t1
    else .ok (left, toks)

/-- `Parser.parsePower` (`**`): a single `if` with a recursive call on
the right operand makes it right-associative. -/
def parsePower : Nat → List Token → Except String (AST × List Token)
  | 0, _ => .error parseFuelErr
  | fuel + 1, toks => do
    let (l, t1) ← parseUnary fuel toks
    if checkTok .POWER t1 then do
      let op := (curTok t1).value
      let (r, t2) ← parsePower fuel (t1.drop 1)
      .ok (.binaryExpr op l r, t2)
    else .ok (l, t1)

/-- `Parser.parseUnary` (prefix `-` and `!`). -/
def parseUnary : Nat → List Token → Except String (AST × List Token)
  | 0, _ => .error parseFuelErr
  | fuel + 1, toks =>
    if checkTok .MINUS toks then do
      let op := (curTok toks).value
      let (x, t1) ← parseUnary fuel (toks.drop 1)
      .ok (.unaryExpr op x, t1)
    else if checkTok .NOT toks then do
      let op := (curTok toks).value
      let (x, t1) ← parseUnary fuel (toks.drop 1)
      .ok (.unaryExpr op x, t1)
    else parsePostfixExpr fuel toks

/-- The postfix level: chains of `[expr]` index accesses. -/
def parsePostfixExpr : Nat → List Token → Except String (AST × List Token)
  | 0, _ => .error parseFuelErr
  | fuel + 1, toks => do
    let (n, t1) ← parsePrimary fuel toks
    parseIndexLoop fuel n t1

/-- The `while (check LBRACKET)` loop of the postfix level. -/
def parseIndexLoop : Nat → AST → List Token → Except String (AST × List Token)
  | 0, _, _ => .error parseFuelErr
  | fuel + 1, node, toks =>
    if checkTok .LBRACKET toks then do
      let (idx, t1) ← parseExpression fuel (toks.drop 1)
      let (_, t2) ← expectTok .RBRACKET none t1
      parseIndexLoop fuel (.indexAccess node idx) t2
    else .ok (node, toks)

/-- The `expr { , expr }*` argument list used by call forms (shared
shape of the inline loops in the source). -/
def parseCallArgs : Nat → List Token → Except String (List AST × List Token)
  | 0, _ => .error parseFuelErr
  | fuel + 1, toks =>
    if checkTok .RPAREN toks then .ok ([], toks)
    else do
      let (a, t1) ← parseExpression fuel toks
      parseArgsLoop fuel [a] t1

/-- The `while (match COMMA)` part of an argument list. -/
def parseArgsLoop : Nat → List AST → List Token → Except String (List AST × List Token)
  | 0, _, _ => .error parseFuelErr
  | fuel + 1, acc, toks =>
    if checkTok .COMMA toks then do
      let (a, t1) ← parseExpression fuel (toks.drop 1)
      parseArgsLoop fuel (acc ++ [a]) t1
    else .ok (acc, toks)

/-- `Parser.parsePrimary`. -/
def parsePrimary : Nat → List Token → Except String (AST × List Token)
  | 0, _ => .error parseFuelErr
  | fuel + 1, toks =>
    let t := curTok toks
    match t.type with
    | .INT_LITERAL => .ok (.numberLit ((jsParseIntChars t.value.toList).getD 0 : Int), toks.drop 1)
    | .FLOAT_LITERAL => .ok (.floatLit ((jsParseFloatChars t.value.toList).getD 0), toks.drop 1)
    | .STRING_LITERAL => .ok (.stringLit t.value, toks.drop 1)
    | .BOOL_LITERAL => .ok (.boolLit (t.value = "true"), toks.drop 1)
    | .LBRACKET => parseListLiteral fuel toks
    | .LBRACE => parseDictLiteral fuel toks
    | .IDENTIFIER =>
      if checkTok .LPAREN (toks.drop 1) then do
        let (args, t1) ← parseCallArgs fuel (toks.drop 2)
        let (_, t2) ← expectTok .RPAREN none t1
        .ok (.funcCall t.value args, t2)
      else .ok (.ident t.value, toks.drop 1)
    | .WRITE => parseWriteExpr fuel toks
    | .LPAREN => do
      let (e, t1) ← parseExpression fuel (toks.drop 1)
      let (_, t2) ← expectTok .RPAREN none t1
      .ok (e, t2)
    | .RAND => parseRandCall fuel toks
    | _ => .error (parseErrMsg ("Неожиданный токен в выражении: \x27" ++ t.value ++ "\x27") t)

/-- `Parser.parseListLiteral`. -/
def parseListLiteral : Nat → List Token → Except String (AST × List Token)
  | 0, _ => .error parseFuelErr
  | fuel + 1, toks => do
    let (_, t1) ← expectTok .LBRACKET none toks
    if checkTok .RBRACKET t1 then do
      let (_, t2) ← expectTok .RBRACKET none t1
      .ok (.listLit [], t2)
    else do
      let (a, t2) ← parseExpression fuel t1
      let (elems, t3) ← parseArgsLoop fuel [a] t2
      let (_, t4) ← expectTok .RBRACKET none t3
      .ok (.listLit elems, t4)

/-- `Parser.parseDictLiteral` (`key : value` pairs separated by commas). -/
def parseDictLiteral : Nat → List Token → Except String (AST × List Token)
  | 0, _ => .error parseFuelErr
  | fuel + 1, toks => do
    let (_, t1) ← expectTok .LBRACE none toks
    if checkTok .RBRACE t1 then do
      let (_, t2) ← expectTok .RBRACE none t1
      .ok (.dictLit [], t2)
    else do
      let (k, t2) ← parseExpression fuel t1
      let (_, t3) ← expectTok .COLON (some "В словаре ожидается \":\" между ключом и значением") t2
      let (v, t4) ← parseExpression fuel t3
      let (entries, t5) ← parseDictEntriesLoop fuel [(k, v)] t4
      let (_, t6) ← expectTok .RBRACE none t5
      .ok (.dictLit entries, t6)

/-- The `while (match COMMA)` loop of `parseDictLiteral`. -/
def parseDictEntriesLoop : Nat → List (AST × AST) → List Token →
    Except String (List (AST × AST) × List Token)
  | 0, _, _ => .error parseFuelErr
  | fuel + 1, acc, toks =>
    if checkTok .COMMA toks then do
      let (k, t1) ← parseExpression fuel (toks.drop 1)
      let (_, t2) ← expectTok .COLON (some "В словаре ожидается \":\" между ключом и значением") t1
      let (v, t3) ← parseExpression fuel t2
      parseDictEntriesLoop fuel (acc ++ [(k, v)]) t3
    else .ok (acc, toks)

/-- `Parser.parseWriteExpr`. -/
def parseWriteExpr : Nat → List Token → Except String (AST × List Token)
  | 0, _ => .error parseFuelErr
  | fuel + 1, toks => do
    let (_, t1) ← expectTok .WRITE none toks
    let (_, t2) ← expectTok .LPAREN none t1
    let (p, t3) ← parseExpression fuel t2
    let (_, t4) ← expectTok .RPAREN none t3
    .ok (.writeExpr p, t4)

/-- `Parser.parseRandCall`. -/
def parseRandCall : Nat → List Token → Except String (AST × List Token)
  | 0, _ => .error parseFuelErr
  | fuel + 1, toks => do
    let (_, t1) ← expectTok .RAND none toks
    let (_, t2) ← expectTok .LPAREN none t1
    let (lo, t3) ← parseExpression fuel t2
    let (_, t4) ← expectTok .COMMA none t3
    let (hi, t5) ← parseExpression fuel t4
    let (_, t6) ← expectTok .RPAREN none t5
    .ok (.randCall lo hi, t6)

end

/-- The declared-type name for a `create:` type token. -/
def createTypeName : TokenType → Option String
  | .TYPE_STRING => some "string"
  | .TYPE_INT => some "int"
  | .TYPE_FLOAT => some "float"
  | .TYPE_BOOL => some "bool"
  | .TYPE_LIST => some "list"
  | .TYPE_DICT => some "dict"
  | _ => none

mutual

/-- `Parser.parseStatement`: dispatch on the current token. -/
def parseStatement : Nat → List Token → Except String (AST × List Token)
  | 0, _ => .error parseFuelErr
  | fuel + 1, toks =>
    let t := curTok toks
    match t.type with
    | .ECHO => parseEcho fuel toks
    | .CREATE => parseCreateVar fuel toks
    | .IDENTIFIER => parseIdentifierStatement fuel toks
    | .IF => parseIf fuel toks
    | .WHILE => parseWhile fuel toks
    | .FOR => parseFor fuel toks
    | _ => .error (parseErrMsg ("Неожиданная инструкция: \x27" ++ t.value ++ "\x27") t)

/-- `Parser.parseEcho`: `echo ( expr { , expr }* ) ;`. -/
def parseEcho : Nat → List Token → Except String (AST × List Token)
  | 0, _ => .error parseFuelErr
  | fuel + 1, toks => do
    let (_, t1) ← expectTok .ECHO none toks
    let (_, t2) ← expectTok .LPAREN none t1
    let (exprs, t3) ← parseCallArgs fuel t2
    let (_, t4) ← expectTok .RPAREN none t3
    let (_, t5) ← expectTok .SEMICOLON none t4
    .ok (.echoStmt exprs, t5)

/-- `Parser.parseCreateVar`: `create:<type> <ident> = expr ;`. -/
def parseCreateVar : Nat → List Token → Except String (AST × List Token)
  | 0, _ => .error parseFuelErr
  | fuel + 1, toks => do
    let (_, t1) ← expectTok .CREATE none toks
    let tt := curTok t1
    match createTypeName tt.type with
    | none =>
      .error (parseErrMsg
        ("Ожидался тип переменной (string/int/float/bool/list/dict), получено: \x27" ++
          tt.value ++ "\x27") tt)
    | some varType => do
      let (nameTok, t2) ← expectTok .IDENTIFIER none (t1.drop 1)
      let (_, t3) ← expectTok .ASSIGN none t2
      let (value, t4) ← parseExpression fuel t3
      if checkTok .SEMICOLON t4 then
        .ok (.createVar varType nameTok.value value, t4.drop 1)
      else .error (parseErrMsg "После объявления переменной ожидается \";\"" (curTok t4))

/-- `Parser.parseIdentifierStatement`: method call, assignment, indexed
assignment or statement-position call after an identifier.  Note that
the indexed-assignment branch parses and then *discards* the index,
producing an `AssignVar` whose name is the identifier with `[]`
appended — exactly as the source does. -/
def parseIdentifierStatement : Nat → List Token → Except String (AST × List Token)
  | 0, _ => .error parseFuelErr
  | fuel + 1, toks =>
    let name := curTok toks
    let t0 := toks.drop 1
    if checkTok .DOT t0 then
      let t1 := t0.drop 1
      let mt := curTok t1
      let methodOpt : Option String :=
        if mt.type = .ADD then some "add"
        else if mt.type = .DELETE then some "delete"
        else if mt.type = .CLEAR then some "clear"
        else none
      match methodOpt with
      | none =>
        .error (parseErrMsg
          ("Ожидался метод (add/delete/clear), получено: \x27" ++ mt.value ++ "\x27") mt)
      | some method => do
        let (_, t2) ← expectTok .COLON (some "После имени метода ожидается \":\"") (t1.drop 1)
        let ct := curTok t2
        let collOpt : Option String :=
          if ct.type = .TYPE_LIST then some "list"
          else if ct.type = .TYPE_DICT then some "dict"
          else none
        match collOpt with
        | none =>
          .error (parseErrMsg
            ("Ожидался тип коллекции (list/dict), получено: \x27" ++ ct.value ++ "\x27") ct)
        | some collectionType => do
          let (_, t3) ← expectTok .LPAREN none (t2.drop 1)
          let (args, t4) ←
            if checkTok .RPAREN t3 then .ok (([] : List AST), t3)
            else do
              let (a, u1) ← parseExpression fuel t3
              let (args2, u2) ←
                if method = "add" && collectionType = "dict" && checkTok .COLON u1 then do
                  let (b, v1) ← parseExpression fuel (u1.drop 1)
                  .ok ([a, b], v1)
                else .ok ([a], u1)
              parseArgsLoop fuel args2 u2
          let (_, t5) ← expectTok .RPAREN none t4
          let (_, t6) ← expectTok .SEMICOLON none t5
          .ok (.methodCall name.value method collectionType args, t6)
    else if checkTok .ASSIGN t0 then do
      let (value, t1) ← parseExpression fuel (t0.drop 1)
      let (_, t2) ← expectTok .SEMICOLON (some "После присваивания ожидается \";\".") t1
      .ok (.assignVar name.value value, t2)
    else if checkTok .LBRACKET t0 then do
      let (_index, t1) ← parseExpression fuel (t0.drop 1)
      let (_, t2) ← expectTok .RBRACKET none t1
      let (_, t3) ← expectTok .ASSIGN none t2
      let (value, t4) ← parseExpression fuel t3
      let (_, t5) ← expectTok .SEMICOLON none t4
      .ok (.assignVar (name.value ++ "[]") value, t5)
    else if checkTok .LPAREN t0 then do
      let (args, t1) ← parseCallArgs fuel (t0.drop 1)
      let (_, t2) ← expectTok .RPAREN none t1
      let (_, t3) ← expectTok .SEMICOLON none t2
      if name.value = "rand" then
        match args with
        | [lo, hi] => .ok (.randCall lo hi, t3)
        | _ =>
          .error (parseErrMsg "Функция rand() ожидает 2 аргумента: min и max." (curTok t3))
      else .ok (.funcCall name.value args, t3)
    else
      .error (parseErrMsg
        ("Неожиданный токен после идентификатора \x27" ++ name.value ++ "\x27") (curTok t0))

/-- `Parser.parseIf`. -/
def parseIf : Nat → List Token → Except String (AST × List Token)
  | 0, _ => .error parseFuelErr
  | fuel + 1, toks => do
    let (_, t1) ← expectTok .IF none toks
    let (_, t2) ← expectTok .LPAREN none t1
    let (cond, t3) ← parseExpression fuel t2
    let (_, t4) ← expectTok .RPAREN none t3
    let (thenB, t5) ← parseBlock fuel t4
    if checkTok .ELSE t5 then
      let t6 := t5.drop 1
      if checkTok .IF t6 then do
        let (elseB, t7) ← parseIf fuel t6
        .ok (.ifStmt cond thenB (some elseB), t7)
      else do
        let (elseB, t7) ← parseBlock fuel t6
        .ok (.ifStmt cond thenB (some elseB), t7)
    else .ok (.ifStmt cond thenB none, t5)

/-- `Parser.parseWhile`. -/
def parseWhile : Nat → List Token → Except String (AST × List Token)
  | 0, _ => .error parseFuelErr
  | fuel + 1, toks => do
    let (_, t1) ← expectTok .WHILE none toks
    let (_, t2) ← expectTok .LPAREN none t1
    let (cond, t3) ← parseExpression fuel t2
    let (_, t4) ← expectTok .RPAREN none t3
    let (body, t5) ← parseBlock fuel t4
    .ok (.whileStmt cond body, t5)

/-- `Parser.parseFor`: `for (init?; cond?; update?) Block`; the
`create:` init consumes its own `;`, a missing condition defaults to
`true`, a missing update stays absent. -/
def parseFor : Nat → List Token → Except String (AST × List Token)
  | 0, _ => .error parseFuelErr
  | fuel + 1, toks => do
    let (_, t1) ← expectTok .FOR none toks
    let (_, t2) ← expectTok .LPAREN none t1
    let (init, t3) ←
      if checkTok .CREATE t2 then do
        let (i, u) ← parseCreateVar fuel t2
        .ok (some i, u)
      else if !checkTok .SEMICOLON t2 then do
        let (nameTok, u1) ← expectTok .IDENTIFIER none t2
        let (_, u2) ← expectTok .ASSIGN none u1
        let (value, u3) ← parseExpression fuel u2
        let (_, u4) ← expectTok .SEMICOLON none u3
        .ok (some (AST.assignVar nameTok.value value), u4)
      else .ok ((none : Option AST), t2.drop 1)
    let (cond, t4) ←
      if checkTok .SEMICOLON t3 then .ok (AST.boolLit true, t3)
      else parseExpression fuel t3
    let (_, t5) ← expectTok .SEMICOLON none t4
    let (update, t6) ←
      if !checkTok .RPAREN t5 then do
        let (nameTok, u1) ← expectTok .IDENTIFIER none t5
        let (_, u2) ← expectTok .ASSIGN none u1
        let (value, u3) ← parseExpression fuel u2
        .ok (some (AST.assignVar nameTok.value value), u3)
      else .ok ((none : Option AST), t5)
    let (_, t7) ← expectTok .RPAREN none t6
    let (body, t8) ← parseBlock fuel t7
    .ok (.forStmt init cond update body, t8)

/-- `Parser.parseBlock`: `{ statement* }`. -/
def parseBlock : Nat → List Token → Except String (AST × List Token)
  | 0, _ => .error parseFuelErr
  | fuel + 1, toks => do
    let (_, t1) ← expectTok .LBRACE none toks
    let (stmts, t2) ← parseBlockStmts fuel [] t1
    let (_, t3) ← expectTok .RBRACE none t2
    .ok (.block stmts, t3)

/-- The statement loop of `parseBlock` (until `}` or end of input). -/
def parseBlockStmts : Nat → List AST → List Token → Except String (List AST × List Token)
  | 0, _, _ => .error parseFuelErr
  | fuel + 1, acc, toks =>
    if !checkTok .RBRACE toks && !checkTok .EOF toks then do
      let (s, t1) ← parseStatement fuel toks
      parseBlockStmts fuel (acc ++ [s]) t1
    else .ok (acc, toks)

end

/-- `Parser.parseMain`: `main ( ) Block`. -/
def parseMain (fuel : Nat) (toks : List Token) : Except String (AST × List Token) := do
  let (_, t1) ← expectTok .MAIN none toks
  let (_, t2) ← expectTok .LPAREN none t1
  let (_, t3) ← expectTok .RPAREN none t2
  let (body, t4) ← parseBlock fuel t3
  .ok (.mainNode body, t4)

/-- `Parser.parseTopLevel`: only `main` is accepted. -/
def parseTopLevel (fuel : Nat) (toks : List Token) : Except String (AST × List Token) :=
  if checkTok .MAIN toks then parseMain fuel toks
  else
    .error (parseErrMsg
      ("Неожиданный токен на верхнем уровне: \x27" ++ (curTok toks).value ++ "\x27")
      (curTok toks))

/-- The top-level loop of `Parser.parse` (until `@VoidEnd` or EOF). -/
def parseTopLoop : Nat → List AST → List Token → Except String (List AST × List Token)
  | 0, _, _ => .error parseFuelErr
  | fuel + 1, acc, toks =>
    if !checkTok .VOID_END toks && !checkTok .EOF toks then do
      let (n, t1) ← parseTopLevel fuel toks
      parseTopLoop fuel (acc ++ [n]) t1
    else .ok (acc, toks)

/-- `Parser.parse`: required `@VoidApp "<name>";` header, optional
`using style "<name>";`, top-level forms, optional `@VoidEnd;`. -/
def parseProgram (fuel : Nat) (toks : List Token) : Except String AST := do
  let (appTok, t1) ← expectTok .VOID_APP (some "Программа должна начинаться с @VoidApp") toks
  let _ := appTok
  let (nameTok, t2) ←
    expectTok .STRING_LITERAL (some "После @VoidApp ожидается имя приложения в кавычках") t1
  let (_, t3) ← expectTok .SEMICOLON (some "После имени приложения ожидается \";\"") t2
  let (style, t6) ←
    if checkTok .USING t3 then do
      let (_, u1) ← expectTok .STYLE (some "После using ожидается style") (t3.drop 1)
      let (styleTok, u2) ←
        expectTok .STRING_LITERAL (some "После style ожидается имя стиля в кавычках") u1
      let (_, u3) ← expectTok .SEMICOLON none u2
      .ok (some styleTok.value, u3)
    else .ok ((none : Option String), t3)
  let (body, t7) ← parseTopLoop fuel [] t6
  if checkTok .VOID_END t7 then do
    let (_, t8) ← expectTok .SEMICOLON none (t7.drop 1)
    let _ := t8
    .ok (.program nameTok.value style body)
  else .ok (.program nameTok.value style body)

/-! ## The evaluator -/

/-- Evaluator state: the scope chain, the stdin/stdout streams, the
oracle stream standing in for the host's float operations
(`Math.random`, `Math.sqrt`), and the allocation counter that hands out
object identities. -/
structure EvalState where
  env : List Scope
  input : List String
  output : List String
  host : List ℚ
  nextId : Nat

/-- Draw the next host-oracle value (0 once the stream is exhausted). -/
def popHost (s : EvalState) : ℚ × EvalState :=
  match s.host with
  | [] => (0, s)
  | q :: rest => (q, { s with host := rest })

/-- `MAX_ITERATIONS`, the per-loop iteration ceiling. -/
def maxIterations : Nat := 1000000

/-- The fatal message of `executeWhile` when the ceiling is exceeded. -/
def whileMaxIterMsg : String :=
  "[Runtime Error] Превышено максимальное число итераций (1000000). Возможен бесконечный цикл."

/-- The fatal message of `executeFor` when the ceiling is exceeded. -/
def forMaxIterMsg : String :=
  "[Runtime Error] Превышено максимальное число итераций."

/-- Fuel-exhaustion marker for the evaluator (a modelling artefact,
never the behaviour of the source; theorems quantify over fuel or use
enough of it). -/
def evalFuelErr : String := "[Model] evaluator fuel exhausted"

/-- JavaScript `a % b` (sign of the dividend): truncated division. -/
def truncQ (q : ℚ) : ℤ := if 0 ≤ q then ⌊q⌋ else ⌈q⌉

/-- JavaScript remainder `a % n` for a nonzero `n`. -/
def jsMod (a n : ℚ) : ℚ := a - n * (truncQ (a / n) : ℚ)

/-- `Math.pow` restricted to the rational model: exact integer
exponents (the only exponents the theorems exercise, and exact on the
host for the values involved); a non-integer exponent is host
floating-point territory outside this model and is mapped to 0. -/
def jsPow (a b : ℚ) : ℚ := if b.den = 1 then a ^ b.num else 0

/-- The binary-operator dispatch of `executeBinaryExpr`, applied after
both operands are evaluated.  `+` needs the allocation counter because
list concatenation builds a fresh array. -/
def applyBinOp (op : String) (l r : VoidValue) (nid : Nat) : Except String (VoidValue × Nat) :=
  if op = "+" then
    match l, r with
    | vstr a, _ => .ok (vstr (a ++ stringify r), nid)
    | _, vstr b => .ok (vstr (stringify l ++ b), nid)
    | vnum a, vnum b => .ok (vnum (a + b), nid)
    | vlist _ es1, vlist _ es2 => .ok (vlist nid (es1 ++ es2), nid + 1)
    | _, _ =>
      .error ("[Runtime Error] Невозможно сложить " ++ jsTypeof l ++ " и " ++ jsTypeof r ++ ".")
  else if op = "-" then do
    let a ← toNumber l
    let b ← toNumber r
    .ok (vnum (a - b), nid)
  else if op = "*" then do
    let a ← toNumber l
    let b ← toNumber r
    .ok (vnum (a * b), nid)
  else if op = "/" then do
    let b ← toNumber r
    if b = 0 then .error "[Runtime Error] Деление на ноль."
    else do
      let a ← toNumber l
      .ok (vnum (a / b), nid)
  else if op = "%" then do
    let b ← toNumber r
    if b = 0 then .error "[Runtime Error] Деление на ноль (модуль)."
    else do
      let a ← toNumber l
      .ok (vnum (jsMod a b), nid)
  else if op = "**" then do
    let a ← toNumber l
    let b ← toNumber r
    .ok (vnum (jsPow a b), nid)
  else if op = "==" then .ok (vbool (areEqual l r), nid)
  else if op = "!=" then .ok (vbool (!areEqual l r), nid)
  else if op = "<" then do
    let a ← toNumber l
    let b ← toNumber r
    .ok (vbool (decide (a < b)), nid)
  else if op = ">" then do
    let a ← toNumber l
    let b ← toNumber r
    .ok (vbool (decide (a > b)), nid)
  else if op = "<=" then do
    let a ← toNumber l
    let b ← toNumber r
    .ok (vbool (decide (a ≤ b)), nid)
  else if op = ">=" then do
    let a ← toNumber l
    let b ← toNumber r
    .ok (vbool (decide (a ≥ b)), nid)
  else if op = "&&" then .ok (vbool (isTruthy l && isTruthy r), nid)
  else if op = "||" then .ok (vbool (isTruthy l || isTruthy r), nid)
  else .error ("[Runtime Error] Неизвестный оператор: " ++ op ++ ".")

/-- `expectArgs` failure message. -/
def arityErrMsg (name : String) (expected got : Nat) : String :=
  "[Runtime Error] Функция \x27" ++ name ++ "\x27 ожидает " ++ natToString expected ++
    " аргумент(ов), получено " ++ natToString got ++ "."

/-- `needle` is a prefix of `hay`. -/
def listStartsWith : List Char → List Char → Bool
  | [], _ => true
  | _ :: _, [] => false
  | a :: as, b :: bs => a = b && listStartsWith as bs

/-- `needle` occurs in `hay` at some position. -/
def strIncludesAux (ns : List Char) : List Char → Bool
  | [] => listStartsWith ns []
  | h :: t => if listStartsWith ns (h :: t) then true else strIncludesAux ns t

/-- JavaScript `hay.includes(needle)`. -/
def strIncludes (hay needle : String) : Bool :=
  strIncludesAux needle.toList hay.toList

/-- The builtin dispatch of `executeFunctionCall`, applied after the
arguments are evaluated.  `Math.sqrt` and `Math.random` produce host
floats and are modelled by the oracle stream; `random` performs no
arity check, mirroring the source. -/
def applyBuiltin (name : String) (args : List VoidValue) (s : EvalState) :
    Except String (VoidValue × EvalState) :=
  if name = "abs" then
    match args with
    | [a] => do
      let q ← toNumber a
      .ok (vnum |q|, s)
    | _ => .error (arityErrMsg "abs" 1 args.length)
  else if name = "sqrt" then
    match args with
    | [a] => do
      let _ ← toNumber a
      let rs := popHost s
      .ok (vnum rs.1, rs.2)
    | _ => .error (arityErrMsg "sqrt" 1 args.length)
  else if name = "floor" then
    match args with
    | [a] => do
      let q ← toNumber a
      .ok (vnum (⌊q⌋ : ℤ), s)
    | _ => .error (arityErrMsg "floor" 1 args.length)
  else if name = "ceil" then
    match args with
    | [a] => do
      let q ← toNumber a
      .ok (vnum (⌈q⌉ : ℤ), s)
    | _ => .error (arityErrMsg "ceil" 1 args.length)
  else if name = "round" then
    match args with
    | [a] => do
      let q ← toNumber a
      .ok (vnum (⌊q + 1/2⌋ : ℤ), s)
    | _ => .error (arityErrMsg "round" 1 args.length)
  else if name = "min" then
    match args with
    | [a, b] => do
      let x ← toNumber a
      let y ← toNumber b
      .ok (vnum (min x y), s)
    | _ => .error (arityErrMsg "min" 2 args.length)
  else if name = "max" then
    match args with
    | [a, b] => do
      let x ← toNumber a
      let y ← toNumber b
      .ok (vnum (max x y), s)
    | _ => .error (arityErrMsg "max" 2 args.length)
  else if name = "random" then
    let rs := popHost s
    .ok (vnum rs.1, rs.2)
  else if name = "toInt" then
    match args with
    | [a] => .ok (vnum ((jsParseIntChars (jsString a).toList).getD 0 : Int), s)
    | _ => .error (arityErrMsg "toInt" 1 args.length)
  else if name = "toFloat" then
    match args with
    | [a] => .ok (vnum ((jsParseFloatChars (jsString a).toList).getD 0), s)
    | _ => .error (arityErrMsg "toFloat" 1 args.length)
  else if name = "toString" then
    match args with
    | [a] => .ok (vstr (stringify a), s)
    | _ => .error (arityErrMsg "toString" 1 args.length)
  else if name = "toBool" then
    match args with
    | [a] => .ok (vbool (isTruthy a), s)
    | _ => .error (arityErrMsg "toBool" 1 args.length)
  else if name = "length" then
    match args with
    | [a] =>
      match a with
      | vlist _ es => .ok (vnum (es.length : ℚ), s)
      | vdict _ ks _ => .ok (vnum (ks.length : ℚ), s)
      | _ => .ok (vnum ((jsString a).length : ℚ), s)
    | _ => .error (arityErrMsg "length" 1 args.length)
  else if name = "upper" then
    match args with
    | [a] => .ok (vstr (jsString a).toUpper, s)
    | _ => .error (arityErrMsg "upper" 1 args.length)
  else if name = "lower" then
    match args with
    | [a] => .ok (vstr (jsString a).toLower, s)
    | _ => .error (arityErrMsg "lower" 1 args.length)
  else if name = "trim" then
    match args with
    | [a] => .ok (vstr (jsString a).trim, s)
    | _ => .error (arityErrMsg "trim" 1 args.length)
  else if name = "contains" then
    match args with
    | [a, b] =>
      match a with
      | vlist _ es => .ok (vbool (es.any (fun item => areEqual item b)), s)
      | _ => .ok (vbool (strIncludes (jsString a) (jsString b)), s)
    | _ => .error (arityErrMsg "contains" 2 args.length)
  else .error ("[Runtime Error] Неизвестная функция: \x27" ++ name ++ "\x27.")

/-- `executeIndexAccess` after both subexpressions are evaluated:
list/string indexing with negative-from-the-end resolution and a fatal
bounds check, dict indexing through `findDictKey`.  A fractional index
inside bounds would produce the host value `undefined`, which has no
counterpart in the value model; it is reported as a model error and
never exercised. -/
def indexValue (obj idx : VoidValue) : Except String VoidValue :=
  match obj with
  | vlist _ es => do
    let i ← toNumber idx
    let len : ℚ := es.length
    let resolved : ℚ := if i < 0 then len + i else i
    if resolved < 0 || resolved ≥ len then
      .error ("[Runtime Error] Индекс " ++ ratToString i ++
        " выходит за границы списка (длина: " ++ natToString es.length ++ ").")
    else if resolved.den = 1 then .ok (es.getD resolved.num.toNat vnull)
    else .error "[Model] non-integer index"
  | vdict _ ks vs => do
    let i ← pure idx
    match findDictKey ks i with
    | some j => .ok (vs.getD j vnull)
    | none =>
      .error ("[Runtime Error] Ключ \x27" ++ stringify idx ++ "\x27 не найден в словаре.")
  | vstr str => do
    let i ← toNumber idx
    let len : ℚ := str.length
    let resolved : ℚ := if i < 0 then len + i else i
    if resolved < 0 || resolved ≥ len then
      .error ("[Runtime Error] Индекс " ++ ratToString i ++
        " выходит за границы строки (длина: " ++ natToString str.length ++ ").")
    else if resolved.den = 1 then
      .ok (vstr ⟨[str.toList.getD resolved.num.toNat ' ']⟩)
    else .error "[Model] non-integer index"
  | _ =>
    .error ("[Runtime Error] Оператор [] не применим к типу " ++ jsTypeof obj ++ ".")

mutual

/-- `Interpreter.executeNode`: the main dispatch.  The fuel argument
decreases on every nested evaluation; `runVoid` supplies enough for
the concrete programs below, and loop theorems quantify over it. -/
def execNode : Nat → AST → EvalState → Except String (VoidValue × EvalState)
  | 0, _, _ => .error evalFuelErr
  | fuel + 1, node, s =>
    match node with
    | .program appName style body =>
      let hdr := "\x1b[36m═══ Void App: " ++ appName ++ " ═══\x1b[0m"
      let styleLines :=
        match style with
        | some st => ["\x1b[90mСтиль: " ++ st ++ "\x1b[0m"]
        | none => []
      let s1 := { s with output := s.output ++ [hdr] ++ styleLines ++ [""] }
      match execStmts fuel body vnull s1 with
      | .error e => .error e
      | .ok (_, s2) =>
        .ok (vnull,
          { s2 with output := s2.output ++ ["", "\x1b[36m═══ Конец " ++ appName ++ " ═══\x1b[0m"] })
    | .mainNode body => execNode fuel body s
    | .block stmts =>
      let s1 := { s with env := ([] : Scope) :: s.env }
      match execStmts fuel stmts vnull s1 with
      | .error e => .error e
      | .ok (v, s2) => .ok (v, { s2 with env := s2.env.drop 1 })
    | .echoStmt exprs =>
      match evalArgs fuel exprs s with
      | .error e => .error e
      | .ok (vals, s1) =>
        .ok (vnull, { s1 with output := s1.output ++ [String.intercalate " " (stringifyList vals)] })
    | .writeExpr prompt =>
      match execNode fuel prompt s with
      | .error e => .error e
      | .ok (pv, s1) =>
        .ok (vstr (s1.input.headD ""),
          { s1 with output := s1.output ++ [stringify pv], input := s1.input.drop 1 })
    | .createVar varType name value =>
      match execNode fuel value s with
      | .error e => .error e
      | .ok (v, s1) =>
        if varType != "list" && varType != "dict" then
          match castValue v varType name with
          | .error e => .error e
          | .ok v' =>
            match envDefine s1.env name varType v' with
            | .error e => .error e
            | .ok env' => .ok (v', { s1 with env := env' })
        else if varType = "list" then
          match v with
          | vlist id es =>
            match envDefine s1.env name varType (vlist id es) with
            | .error e => .error e
            | .ok env' => .ok (vlist id es, { s1 with env := env' })
          | _ =>
            .error ("[Runtime Error] Переменная \x27" ++ name ++
              "\x27 типа list ожидает список, получено: " ++ stringify v)
        else
          match v with
          | vdict id ks vs =>
            match envDefine s1.env name varType (vdict id ks vs) with
            | .error e => .error e
            | .ok env' => .ok (vdict id ks vs, { s1 with env := env' })
          | _ =>
            .error ("[Runtime Error] Переменная \x27" ++ name ++
              "\x27 типа dict ожидает словарь, получено: " ++ stringify v)
    | .assignVar name value =>
      match envGet s.env name with
      | .error e => .error e
      | .ok vbind =>
        match execNode fuel value s with
        | .error e => .error e
        | .ok (v, s1) =>
          let cast : Except String VoidValue :=
            if vbind.type != "list" && vbind.type != "dict" then
              castValue v vbind.type name
            else .ok v
          match cast with
          | .error e => .error e
          | .ok v' =>
            match envSet s1.env name v' with
            | .error e => .error e
            | .ok env' => .ok (v', { s1 with env := env' })
    | .ifStmt cond thenB elseB =>
      match execNode fuel cond s with
      | .error e => .error e
      | .ok (c, s1) =>
        if isTruthy c then execNode fuel thenB s1
        else
          match elseB with
          | some e => execNode fuel e s1
          | none => .ok (vnull, s1)
    | .whileStmt cond body =>
      match whileAux fuel cond body s 0 with
      | (.ok s', _) => .ok (vnull, s')
      | (.error e, _) => .error e
    | .forStmt init cond update body =>
      let s1 := { s with env := ([] : Scope) :: s.env }
      let afterInit : Except String EvalState :=
        match init with
        | some i =>
          match execNode fuel i s1 with
          | .error e => .error e
          | .ok (_, s2) => .ok s2
        | none => .ok s1
      match afterInit with
      | .error e => .error e
      | .ok s2 =>
        match forAux fuel cond update body s2 0 with
        | (.ok s', _) => .ok (vnull, { s' with env := s'.env.drop 1 })
        | (.error e, _) => .error e
    | .binaryExpr op l r =>
      match execNode fuel l s with
      | .error e => .error e
      | .ok (lv, s1) =>
        match execNode fuel r s1 with
        | .error e => .error e
        | .ok (rv, s2) =>
          match applyBinOp op lv rv s2.nextId with
          | .error e => .error e
          | .ok (v, nid) => .ok (v, { s2 with nextId := nid })
    | .unaryExpr op x =>
      match execNode fuel x s with
      | .error e => .error e
      | .ok (v, s1) =>
        if op = "-" then
          match toNumber v with
          | .error e => .error e
          | .ok q => .ok (vnum (-q), s1)
        else if op = "!" then .ok (vbool (!isTruthy v), s1)
        else .error ("[Runtime Error] Неизвестный унарный оператор: " ++ op ++ ".")
    | .numberLit q => .ok (vnum q, s)
    | .floatLit q => .ok (vnum q, s)
    | .stringLit str => .ok (vstr str, s)
    | .boolLit b => .ok (vbool b, s)
    | .ident name =>
      match envGet s.env name with
      | .error e => .error e
      | .ok vbind => .ok (vbind.value, s)
    | .funcCall name args =>
      match evalArgs fuel args s with
      | .error e => .error e
      | .ok (vals, s1) => applyBuiltin name vals s1
    | .randCall lo hi =>
      match execNode fuel lo s with
      | .error e => .error e
      | .ok (lv, s1) =>
        match toNumber lv with
        | .error e => .error e
        | .ok mn =>
          match execNode fuel hi s1 with
          | .error e => .error e
          | .ok (hv, s2) =>
            match toNumber hv with
            | .error e => .error e
            | .ok mx =>
              if mn > mx then
                .error "[Runtime Error] rand(min, max): min не может быть больше max."
              else
                let rs := popHost s2
                .ok (vnum (⌊rs.1 * (mx - mn + 1) + mn⌋ : ℤ), rs.2)
    | .listLit elems =>
      match evalArgs fuel elems s with
      | .error e => .error e
      | .ok (vals, s1) => .ok (vlist s1.nextId vals, { s1 with nextId := s1.nextId + 1 })
    | .dictLit entries =>
      match evalDictEntries fuel entries s with
      | .error e => .error e
      | .ok (kvs, s1) =>
        .ok (vdict s1.nextId (kvs.map (·.1)) (kvs.map (·.2)),
          { s1 with nextId := s1.nextId + 1 })
    | .indexAccess obj idx =>
      match execNode fuel obj s with
      | .error e => .error e
      | .ok (ov, s1) =>
        match execNode fuel idx s1 with
        | .error e => .error e
        | .ok (iv, s2) =>
          match indexValue ov iv with
          | .error e => .error e
          | .ok v => .ok (v, s2)
    | .methodCall objName method collType args => execMethodCall fuel objName method collType args s

/-- `Interpreter.executeMethodCall` plus the three `executeMethod*`
helpers: fetch the variable, dispatch on the method name, re-check the
collection shape, check the argument count, evaluate the arguments and
mutate the container (modelled by writing the updated container back
to the binding that `get` found, which is what the source's in-place
mutation does). -/
def execMethodCall (fuel : Nat) (objName method collType : String) (args : List AST)
    (s : EvalState) : Except String (VoidValue × EvalState) :=
  match envGet s.env objName with
  | .error e => .error e
  | .ok vbind =>
    if method = "add" then
      if collType = "list" then
        match vbind.value with
        | vlist id es =>
          if args.length != 1 then .error "[Runtime Error] add:list() ожидает 1 аргумент."
          else
            match args with
            | [a] =>
              match execNode fuel a s with
              | .error e => .error e
              | .ok (v, s1) =>
                match envSet s1.env objName (vlist id (es ++ [v])) with
                | .error e => .error e
                | .ok env' => .ok (vnull, { s1 with env := env' })
            | _ => .error "[Runtime Error] add:list() ожидает 1 аргумент."
        | _ =>
          .error ("[Runtime Error] Переменная \x27" ++ objName ++ "\x27 не является списком.")
      else if collType = "dict" then
        match vbind.value with
        | vdict id ks vs =>
          if args.length != 2 then
            .error "[Runtime Error] add:dict() ожидает 2 аргумента (ключ:значение)."
          else
            match args with
            | [ka, va] =>
              match execNode fuel ka s with
              | .error e => .error e
              | .ok (k, s1) =>
                match execNode fuel va s1 with
                | .error e => .error e
                | .ok (v, s2) =>
                  let kv := dictAdd ks vs k v
                  match envSet s2.env objName (vdict id kv.1 kv.2) with
                  | .error e => .error e
                  | .ok env' => .ok (vnull, { s2 with env := env' })
            | _ => .error "[Runtime Error] add:dict() ожидает 2 аргумента (ключ:значение)."
        | _ =>
          .error ("[Runtime Error] Переменная \x27" ++ objName ++ "\x27 не является словарём.")
      else .ok (vnull, s)
    else if method = "delete" then
      if collType = "list" then
        match vbind.value with
        | vlist id es =>
          if args.length != 1 then
            .error "[Runtime Error] delete:list() ожидает 1 аргумент (индекс)."
          else
            match args with
            | [a] =>
              match execNode fuel a s with
              | .error e => .error e
              | .ok (iv, s1) =>
                match toNumber iv with
                | .error e => .error e
                | .ok i =>
                  let len : ℚ := es.length
                  let resolved : ℚ := if i < 0 then len + i else i
                  if resolved < 0 || resolved ≥ len then
                    .error ("[Runtime Error] Индекс " ++ ratToString i ++
                      " выходит за границы списка (длина: " ++ natToString es.length ++ ").")
                  else if resolved.den = 1 then
                    match envSet s1.env objName (vlist id (es.eraseIdx resolved.num.toNat)) with
                    | .error e => .error e
                    | .ok env' => .ok (vnull, { s1 with env := env' })
                  else .error "[Model] non-integer index"
            | _ => .error "[Runtime Error] delete:list() ожидает 1 аргумент (индекс)."
        | _ =>
          .error ("[Runtime Error] Переменная \x27" ++ objName ++ "\x27 не является списком.")
      else if collType = "dict" then
        match vbind.value with
        | vdict id ks vs =>
          if args.length != 1 then
            .error "[Runtime Error] delete:dict() ожидает 1 аргумент (ключ)."
          else
            match args with
            | [a] =>
              match execNode fuel a s with
              | .error e => .error e
              | .ok (k, s1) =>
                match findDictKey ks k with
                | none =>
                  .error ("[Runtime Error] Ключ \x27" ++ stringify k ++
                    "\x27 не найден в словаре.")
                | some j =>
                  match envSet s1.env objName (vdict id (ks.eraseIdx j) (vs.eraseIdx j)) with
                  | .error e => .error e
                  | .ok env' => .ok (vnull, { s1 with env := env' })
            | _ => .error "[Runtime Error] delete:dict() ожидает 1 аргумент (ключ)."
        | _ =>
          .error ("[Runtime Error] Переменная \x27" ++ objName ++ "\x27 не является словарём.")
      else .ok (vnull, s)
    else if method = "clear" then
      if collType = "list" then
        match vbind.value with
        | vlist id _ =>
          if args.length != 0 then .error "[Runtime Error] clear:list() не принимает аргументов."
          else
            match envSet s.env objName (vlist id []) with
            | .error e => .error e
            | .ok env' => .ok (vnull, { s with env := env' })
        | _ =>
          .error ("[Runtime Error] Переменная \x27" ++ objName ++ "\x27 не является списком.")
      else if collType = "dict" then
        match vbind.value with
        | vdict id _ _ =>
          if args.length != 0 then .error "[Runtime Error] clear:dict() не принимает аргументов."
          else
            match envSet s.env objName (vdict id [] []) with
            | .error e => .error e
            | .ok env' => .ok (vnull, { s with env := env' })
        | _ =>
          .error ("[Runtime Error] Переменная \x27" ++ objName ++ "\x27 не является словарём.")
      else .ok (vnull, s)
    else .error ("[Runtime Error] Неизвестный метод: \x27" ++ method ++ "\x27.")

/-- The statement loop of `executeBlock` (and of `execute` over the
program body): run each statement in order, keeping the last result. -/
def execStmts : Nat → List AST → VoidValue → EvalState → Except String (VoidValue × EvalState)
  | 0, _, _, _ => .error evalFuelErr
  | _ + 1, [], result, s => .ok (result, s)
  | fuel + 1, stmt :: rest, _, s =>
    match execNode fuel stmt s with
    | .error e => .error e
    | .ok (v, s1) => execStmts fuel rest v s1

/-- Left-to-right evaluation of an expression list (`node.args.map`/
`node.expressions.map`/`node.elements` loops of the source). -/
def evalArgs : Nat → List AST → EvalState → Except String (List VoidValue × EvalState)
  | 0, _, _ => .error evalFuelErr
  | _ + 1, [], s => .ok ([], s)
  | fuel + 1, a :: rest, s =>
    match execNode fuel a s with
    | .error e => .error e
    | .ok (v, s1) =>
      match evalArgs fuel rest s1 with
      | .error e => .error e
      | .ok (vs, s2) => .ok (v :: vs, s2)

/-- Entry evaluation of `executeDictLiteral`: key then value, in
insertion order, with no key deduplication. -/
def evalDictEntries : Nat → List (AST × AST) → EvalState →
    Except String (List (VoidValue × VoidValue) × EvalState)
  | 0, _, _ => .error evalFuelErr
  | _ + 1, [], s => .ok ([], s)
  | fuel + 1, (ka, va) :: rest, s =>
    match execNode fuel ka s with
    | .error e => .error e
    | .ok (k, s1) =>
      match execNode fuel va s1 with
      | .error e => .error e
      | .ok (v, s2) =>
        match evalDictEntries fuel rest s2 with
        | .error e => .error e
        | .ok (kvs, s3) => .ok ((k, v) :: kvs, s3)

/-- The loop of `executeWhile`, carrying the source's `iterations`
counter and returning its final value alongside the outcome: evaluate
the condition, run the body in a fresh child scope, then increment the
counter and fail once it exceeds `MAX_ITERATIONS`. -/
def whileAux : Nat → AST → AST → EvalState → Nat → Except String EvalState × Nat
  | 0, _, _, _, it => (.error evalFuelErr, it)
  | fuel + 1, cond, body, s, it =>
    match execNode fuel cond s with
    | .error e => (.error e, it)
    | .ok (c, s1) =>
      if isTruthy c then
        match execNode fuel body s1 with
        | .error e => (.error e, it)
        | .ok (_, s2) =>
          let it' := it + 1
          if it' > maxIterations then (.error whileMaxIterMsg, it')
          else whileAux fuel cond body s2 it'
      else (.ok s1, it)

/-- The loop of `executeFor`: condition, body (fresh child scope),
update, then the same counter check as `executeWhile` (with its own
message). -/
def forAux : Nat → AST → Option AST → AST → EvalState → Nat → Except String EvalState × Nat
  | 0, _, _, _, _, it => (.error evalFuelErr, it)
  | fuel + 1, cond, update, body, s, it =>
    match execNode fuel cond s with
    | .error e => (.error e, it)
    | .ok (c, s1) =>
      if isTruthy c then
        match execNode fuel body s1 with
        | .error e => (.error e, it)
        | .ok (_, s2) =>
          let afterUpd : Except String EvalState :=
            match update with
            | some u =>
              match execNode fuel u s2 with
              | .error e => .error e
              | .ok (_, s3) => .ok s3
            | none => .ok s2
          match afterUpd with
          | .error e => (.error e, it)
          | .ok s3 =>
            let it' := it + 1
            if it' > maxIterations then (.error forMaxIterMsg, it')
            else forAux fuel cond update body s3 it'
      else (.ok s1, it)

end

/-- The initial evaluator state: one empty global scope and the given
stdin and host-oracle streams. -/
def initState (input : List String) (host : List ℚ) : EvalState :=
  ⟨[([] : Scope)], input, [], host, 0⟩

/-- Lex, parse and execute a source string, as the driver does. -/
def runVoid (fuel : Nat) (src : String) (input : List String) (host : List ℚ) :
    Except String EvalState := do
  let toks ← tokenize src
  let prog ← parseProgram fuel toks
  (execNode fuel prog (initState input host)).map (·.2)

/-- The stdout lines of a run. -/
def runOutput (fuel : Nat) (src : String) (input : List String) (host : List ℚ) :
    Except String (List String) :=
  (runVoid fuel src input host).map (·.output)

/-- The ten decimal digit characters. -/
def decDigitChars : List Char := ['0', '1', '2', '3', '4', '5', '6', '7', '8', '9']

/-- The decorated header line emitted by `execute`. -/
def appHeader (name : String) : String :=
  "\x1b[36m═══ Void App: " ++ name ++ " ═══\x1b[0m"

/-- The decorated footer line emitted by `execute`. -/
def appFooter (name : String) : String :=
  "\x1b[36m═══ Конец " ++ name ++ " ═══\x1b[0m"

/-- Lex a source fragment and parse it as one expression. -/
def parseExprStr (fuel : Nat) (src : String) : Except String AST := do
  let ts ← tokenize src
  (parseExpression fuel ts).map (·.1)

/-- Lex a source fragment and parse it as one statement. -/
def parseStmtStr (fuel : Nat) (src : String) : Except String AST := do
  let ts ← tokenize src
  (parseStatement fuel ts).map (·.1)

/-! ## Supporting lemmas -/

set_option maxRecDepth 10000

theorem digitToChar_mem (d : Nat) : digitToChar d ∈ decDigitChars := by
  unfold digitToChar
  split <;> simp [decDigitChars]

theorem charToDigit_digitToChar {d : Nat} (h : d < 10) : charToDigit (digitToChar d) = d := by
  interval_cases d <;> rfl

theorem digitChar_props {c : Char} (h : c ∈ decDigitChars) :
    isDigitCh c = true ∧ isSpaceCh c = false ∧ c ≠ '-' ∧ c ≠ '+' := by
  fin_cases h <;> refine ⟨by decide, by decide, by decide, by decide⟩

theorem natDigitsAux_mem {fuel n : Nat} (h : n < fuel) :
    ∀ c ∈ natDigitsAux fuel n, c ∈ decDigitChars := by
  induction fuel generalizing n with
  | zero => omega
  | succ m ih =>
    intro c hc
    rw [natDigitsAux] at hc
    by_cases h10 : n < 10
    · simp only [if_pos h10, List.mem_singleton] at hc
      subst hc
      exact digitToChar_mem n
    · simp only [if_neg h10, List.mem_append, List.mem_singleton] at hc
      rcases hc with hc | hc
      · have hlt : n / 10 < m := by
          have := Nat.div_lt_self (by omega : 0 < n) (by omega : 1 < 10)
          omega
        exact ih hlt c hc
      · subst hc
        exact digitToChar_mem _

theorem digitsVal_append_one (cs : List Char) (c : Char) :
    digitsVal (cs ++ [c]) = digitsVal cs * 10 + charToDigit c := by
  simp [digitsVal, List.foldl_append]

theorem digitsVal_natDigitsAux {fuel n : Nat} (h : n < fuel) :
    digitsVal (natDigitsAux fuel n) = n := by
  induction fuel generalizing n with
  | zero => omega
  | succ m ih =>
    rw [natDigitsAux]
    by_cases h10 : n < 10
    · simp [if_pos h10, digitsVal, charToDigit_digitToChar h10]
    · have hlt : n / 10 < m := by
        have := Nat.div_lt_self (by omega : 0 < n) (by omega : 1 < 10)
        omega
      rw [if_neg h10, digitsVal_append_one, ih hlt,
        charToDigit_digitToChar (Nat.mod_lt n (by omega))]
      omega

theorem natDigitsAux_ne_nil {fuel n : Nat} (h : n < fuel) : natDigitsAux fuel n ≠ [] := by
  cases fuel with
  | zero => omega
  | succ m =>
    rw [natDigitsAux]
    by_cases h10 : n < 10 <;> simp [h10]

theorem takeWhile_eq_self_of_all {p : Char → Bool} :
    ∀ {l : List Char}, (∀ c ∈ l, p c = true) → l.takeWhile p = l := by
  intro l
  induction l with
  | nil => intro _; rfl
  | cons a t ih =>
    intro h
    rw [List.takeWhile_cons, h a (by simp)]
    simp [ih (fun c hc => h c (by simp [hc]))]

theorem dropWhile_eq_nil_of_all {p : Char → Bool} :
    ∀ {l : List Char}, (∀ c ∈ l, p c = true) → l.dropWhile p = [] := by
  intro l
  induction l with
  | nil => intro _; rfl
  | cons a t ih =>
    intro h
    rw [List.dropWhile_cons, h a (by simp)]
    simp [ih (fun c hc => h c (by simp [hc]))]

theorem jsParseIntChars_of_digits {cs : List Char} (hne : cs ≠ [])
    (hd : ∀ c ∈ cs, c ∈ decDigitChars) : jsParseIntChars cs = some (digitsVal cs) := by
  obtain ⟨c0, cs', rfl⟩ := List.exists_cons_of_ne_nil hne
  have h0 := digitChar_props (hd c0 (by simp))
  have hall : ∀ c ∈ c0 :: cs', isDigitCh c = true := fun c hc => (digitChar_props (hd c hc)).1
  have hnotspace : isSpaceCh c0 = false := h0.2.1
  rw [jsParseIntChars]
  rw [List.dropWhile_cons, hnotspace]
  simp only [Bool.false_eq_true, if_false]
  have hmem0 := hd c0 (by simp)
  fin_cases hmem0 <;>
    simp [takeWhile_eq_self_of_all hall, List.isEmpty_cons]

theorem natDigits_mem (n : Nat) : ∀ c ∈ natDigits n, c ∈ decDigitChars :=
  natDigitsAux_mem (Nat.lt_succ_self n)

theorem digitsVal_natDigits (n : Nat) : digitsVal (natDigits n) = n :=
  digitsVal_natDigitsAux (Nat.lt_succ_self n)

theorem natDigits_ne_nil (n : Nat) : natDigits n ≠ [] :=
  natDigitsAux_ne_nil (Nat.lt_succ_self n)

theorem toList_mk (cs : List Char) : String.toList ⟨cs⟩ = cs := rfl

theorem jsParseIntChars_intToString (n : Int) (hb : n.natAbs < 10 ^ 21) :
    jsParseIntChars (intToString n).toList = some n := by
  rw [intToString, if_pos hb]
  by_cases hn : n < 0
  · rw [if_pos hn, toList_mk, jsParseIntChars]
    rw [List.dropWhile_cons]
    simp only [show isSpaceCh '-' = false from rfl, Bool.false_eq_true, if_false]
    have hall : ∀ c ∈ natDigits n.natAbs, isDigitCh c = true :=
      fun c hc => (digitChar_props (natDigits_mem _ c hc)).1
    simp only [takeWhile_eq_self_of_all hall]
    have hne : (natDigits n.natAbs).isEmpty = false := by
      cases h : natDigits n.natAbs with
      | nil => exact absurd h (natDigits_ne_nil _)
      | cons a t => rfl
    simp only [hne, Bool.false_eq_true, if_false, digitsVal_natDigits, Option.map_some,
      Option.bind_some, Option.some_bind, Option.bind_eq_bind, Option.pure_def,
      Option.some.injEq]
    show some (-(n.natAbs : ℤ)) = some n
    simp only [Option.some.injEq]
    omega
  · rw [if_neg hn, toList_mk]
    rw [jsParseIntChars_of_digits (natDigits_ne_nil _) (natDigits_mem _)]
    rw [digitsVal_natDigits]
    show some ((n.natAbs : ℤ)) = some n
    simp only [Option.some.injEq]
    omega

theorem jsString_intCast (n : ℤ) : jsString (vnum (n : ℚ)) = intToString n := by
  show ratToString (n : ℚ) = intToString n
  rw [ratToString]
  simp [Rat.den_intCast, Rat.num_intCast]

theorem toInt_roundtrip (n : ℤ) (s : EvalState) (hb : n.natAbs < 10 ^ 21) :
    applyBuiltin "toInt" [vnum (n : ℚ)] s = .ok (vnum (n : ℚ), s) := by
  have h1 : applyBuiltin "toInt" [vnum (n : ℚ)] s
      = .ok (vnum (((jsParseIntChars (jsString (vnum (n : ℚ))).toList).getD 0 : ℤ) : ℚ), s) := rfl
  rw [h1, jsString_intCast, jsParseIntChars_intToString n hb]
  rfl

theorem findDictKey_none_iff (ks : List VoidValue) (k : VoidValue) :
    findDictKey ks k = none ↔ ∀ k0 ∈ ks, areEqual k0 k = false := by
  induction ks with
  | nil => simp [findDictKey]
  | cons k0 rest ih =>
    rw [findDictKey]
    by_cases h : areEqual k0 k
    · simp [h]
    · simp [h, Option.map_eq_none, ih]

theorem findDictKey_some_spec (ks : List VoidValue) (k : VoidValue) :
    ∀ i, findDictKey ks k = some i →
      i < ks.length ∧ areEqual (ks.getD i vnull) k = true ∧
        ∀ j, j < i → areEqual (ks.getD j vnull) k = false := by
  induction ks with
  | nil => intro i h; simp [findDictKey] at h
  | cons k0 rest ih =>
    intro i h
    rw [findDictKey] at h
    by_cases h0 : areEqual k0 k
    · rw [if_pos h0] at h
      obtain rfl : (0 : Nat) = i := Option.some.inj h
      exact ⟨by simp, by simpa using h0, fun j hj => by omega⟩
    · rw [if_neg h0] at h
      obtain ⟨i', hi', rfl⟩ := Option.map_eq_some.mp h
      obtain ⟨hlt, heq, hprev⟩ := ih i' hi'
      refine ⟨by simpa using hlt, by simpa using heq, ?_⟩
      intro j hj
      cases j with
      | zero => simpa using Bool.eq_false_iff.mpr h0
      | succ j' => simpa using hprev j' (by omega)

theorem dictAdd_replace (ks vs : List VoidValue) (k v : VoidValue) (i : Nat)
    (h : findDictKey ks k = some i) : dictAdd ks vs k v = (ks, vs.set i v) := by
  rw [dictAdd, h]

theorem dictAdd_append (ks vs : List VoidValue) (k v : VoidValue)
    (h : findDictKey ks k = none) : dictAdd ks vs k v = (ks ++ [k], vs ++ [v]) := by
  rw [dictAdd, h]

theorem keysPairwiseDistinct_append (ks : List VoidValue) (k : VoidValue)
    (h : keysPairwiseDistinct ks = true) (hnew : ∀ k0 ∈ ks, areEqual k0 k = false) :
    keysPairwiseDistinct (ks ++ [k]) = true := by
  induction ks with
  | nil => simp [keysPairwiseDistinct]
  | cons k0 rest ih =>
    rw [keysPairwiseDistinct] at h
    simp only [Bool.and_eq_true] at h
    rw [List.cons_append, keysPairwiseDistinct]
    simp only [Bool.and_eq_true]
    constructor
    · rw [List.all_append]
      simp only [Bool.and_eq_true]
      exact ⟨h.1, by simp [hnew k0 (by simp)]⟩
    · exact ih h.2 (fun x hx => hnew x (by simp [hx]))

theorem countDistinct_eq_length (ks : List VoidValue)
    (h : keysPairwiseDistinct ks = true) : countDistinct ks = ks.length := by
  induction ks with
  | nil => rfl
  | cons k0 rest ih =>
    rw [keysPairwiseDistinct] at h
    simp only [Bool.and_eq_true] at h
    have hany : rest.any (fun k2 => areEqual k0 k2) = false := by
      rw [List.any_eq_false]
      intro k2 hk2
      have := (List.all_eq_true.mp h.1) k2 hk2
      simpa using this
    rw [countDistinct, hany]
    simp only [Bool.false_eq_true, if_false, ih h.2, List.length_cons]
    omega

theorem dictAdd_preserves_distinct (ks vs : List VoidValue) (k v : VoidValue)
    (h : keysPairwiseDistinct ks = true) :
    keysPairwiseDistinct (dictAdd ks vs k v).1 = true := by
  cases hf : findDictKey ks k with
  | none =>
    rw [dictAdd_append ks vs k v hf]
    exact keysPairwiseDistinct_append ks k h ((findDictKey_none_iff ks k).mp hf)
  | some i =>
    rw [dictAdd_replace ks vs k v i hf]
    exact h

theorem dictAddMany_preserves_distinct (ops : List (VoidValue × VoidValue)) :
    ∀ ks vs, keysPairwiseDistinct ks = true →
      keysPairwiseDistinct (dictAddMany ks vs ops).1 = true := by
  induction ops with
  | nil => intro ks vs h; simpa [dictAddMany] using h
  | cons p rest ih =>
    intro ks vs h
    obtain ⟨k, v⟩ := p
    rw [dictAddMany]
    exact ih _ _ (dictAdd_preserves_distinct ks vs k v h)

theorem whileAux_bound (fuel : Nat) :
    ∀ (cond body : AST) (s : EvalState) (it : Nat), it ≤ maxIterations →
      (whileAux fuel cond body s it).2 ≤ maxIterations ∨
        ((whileAux fuel cond body s it).1 = .error whileMaxIterMsg ∧
          (whileAux fuel cond body s it).2 = maxIterations + 1) := by
  induction fuel with
  | zero =>
    intro cond body s it h
    left
    simpa [whileAux] using h
  | succ n ih =>
    intro cond body s it h
    rw [whileAux]
    cases hc : execNode n cond s with
    | error e => left; simpa using h
    | ok p =>
      obtain ⟨c, s1⟩ := p
      by_cases ht : isTruthy c
      · simp only [ht, if_true]
        cases hb : execNode n body s1 with
        | error e => left; simpa using h
        | ok q =>
          obtain ⟨v, s2⟩ := q
          by_cases hgt : it + 1 > maxIterations
          · have hit : it = maxIterations := by omega
            right
            simp [hgt, hit]
          · simp only [hgt, if_false]
            exact ih cond body s2 (it + 1) (by omega)
      · left
        simp only [ht, if_false]
        exact h

theorem forAux_bound (fuel : Nat) :
    ∀ (cond : AST) (update : Option AST) (body : AST) (s : EvalState) (it : Nat),
      it ≤ maxIterations →
      (forAux fuel cond update body s it).2 ≤ maxIterations ∨
        ((forAux fuel cond update body s it).1 = .error forMaxIterMsg ∧
          (forAux fuel cond update body s it).2 = maxIterations + 1) := by
  induction fuel with
  | zero =>
    intro cond update body s it h
    left
    simpa [forAux] using h
  | succ n ih =>
    intro cond update body s it h
    rw [forAux]
    cases hc : execNode n cond s with
    | error e => left; simpa using h
    | ok p =>
      obtain ⟨c, s1⟩ := p
      by_cases ht : isTruthy c
      · simp only [ht, if_true]
        cases hb : execNode n body s1 with
        | error e => left; simpa using h
        | ok q =>
          obtain ⟨v, s2⟩ := q
          cases update with
          | none =>
            by_cases hgt : it + 1 > maxIterations
            · have hit : it = maxIterations := by omega
              right
              simp [hgt, hit]
            · simp only [hgt, if_false]
              exact ih cond none body s2 (it + 1) (by omega)
          | some u =>
            cases hu : execNode n u s2 with
            | error e =>
              left
              simp only [hu]
              simpa using h
            | ok r =>
              obtain ⟨w, s3⟩ := r
              simp only [hu]
              by_cases hgt : it + 1 > maxIterations
              · have hit : it = maxIterations := by omega
                right
                simp [hgt, hit]
              · simp only [hgt, if_false]
                exact ih cond (some u) body s3 (it + 1) (by omega)
      · left
        simp only [ht, if_false]
        exact h

theorem execNode_and_both (fuel : Nat) (l r : AST) (s : EvalState) :
    execNode (fuel + 1) (.binaryExpr "&&" l r) s =
      (match execNode fuel l s with
      | .error e => .error e
      | .ok (lv, s1) =>
        match execNode fuel r s1 with
        | .error e => .error e
        | .ok (rv, s2) => .ok (vbool (isTruthy lv && isTruthy rv), s2)) := by
  rw [execNode]
  cases hl : execNode fuel l s with
  | error e => rfl
  | ok p =>
    obtain ⟨lv, s1⟩ := p
    cases hr : execNode fuel r s1 with
    | error e => rfl
    | ok q =>
      obtain ⟨rv, s2⟩ := q
      rfl

theorem envDefine_error_iff (sc : Scope) (rest : List Scope) (n ty : String) (v : VoidValue) :
    (∃ e, envDefine (sc :: rest) n ty v = .error e) ↔ (sc.lookup n).isSome = true := by
  rw [envDefine]
  cases h : (sc.lookup n).isSome with
  | true => simp
  | false => simp

theorem envGet_error_iff : ∀ (env : List Scope) (n : String),
    (∃ e, envGet env n = .error e) ↔ envHas env n = false := by
  intro env
  induction env with
  | nil => intro n; simp [envGet, envHas]
  | cons sc rest ih =>
    intro n
    rw [envGet, envHas]
    cases h : sc.lookup n with
    | some vb => simp [h]
    | none => simp [h, ih n]

theorem envSet_error_iff : ∀ (env : List Scope) (n : String) (v : VoidValue),
    (∃ e, envSet env n v = .error e) ↔ envHas env n = false := by
  intro env
  induction env with
  | nil => intro n v; simp [envSet, envHas]
  | cons sc rest ih =>
    intro n v
    rw [envSet, envHas]
    cases h : (sc.lookup n).isSome with
    | true => simp
    | false =>
      simp only [Bool.false_eq_true, if_false, Bool.false_or]
      cases hr : envSet rest n v with
      | error e =>
        constructor
        · intro _
          exact (ih n v).mp ⟨e, hr⟩
        · intro _
          exact ⟨e, rfl⟩
      | ok renv =>
        constructor
        · rintro ⟨e, he⟩
          cases he
        · intro hfalse2
          obtain ⟨e, he⟩ := (ih n v).mpr hfalse2
          rw [he] at hr
          cases hr

theorem scopeSetValue_cons (p : String × Variable) (rest : Scope) (n : String) (v : VoidValue) :
    scopeSetValue (p :: rest) n v =
      (if p.1 = n then (p.1, ⟨p.2.type, v⟩) else p) :: scopeSetValue rest n v := rfl

theorem lookup_scopeSetValue (n : String) (v : VoidValue) :
    ∀ (sc : Scope) (vb : Variable), sc.lookup n = some vb →
      (scopeSetValue sc n v).lookup n = some ⟨vb.type, v⟩ := by
  intro sc
  induction sc with
  | nil => intro vb h; cases h
  | cons p rest ih =>
    obtain ⟨pk, pv⟩ := p
    intro vb h
    cases hbeq : n == pk with
    | true =>
      have hp : n = pk := beq_iff_eq.mp hbeq
      simp only [List.lookup_cons, hbeq] at h
      obtain rfl := Option.some.inj h
      rw [scopeSetValue_cons, if_pos hp.symm]
      simp [List.lookup_cons, hbeq]
    | false =>
      simp only [List.lookup_cons, hbeq] at h
      have hp : ¬ (pk, pv).1 = n := by
        intro heq
        rw [show pk = n from heq] at hbeq
        simp at hbeq
      rw [scopeSetValue_cons, if_neg hp]
      simp only [List.lookup_cons, hbeq]
      exact ih vb h

theorem envSet_nearest : ∀ (env : List Scope) (n : String) (v : VoidValue) (env' : List Scope),
    envSet env n v = .ok env' →
    ∃ k sc, env.get? k = some sc ∧ (sc.lookup n).isSome = true ∧
      (∀ j scj, j < k → env.get? j = some scj → (scj.lookup n).isSome = false) ∧
      env' = env.take k ++ scopeSetValue sc n v :: env.drop (k + 1) := by
  intro env
  induction env with
  | nil => intro n v env' h; rw [envSet] at h; cases h
  | cons sc rest ih =>
    intro n v env' h
    rw [envSet] at h
    by_cases hl : (sc.lookup n).isSome
    · rw [if_pos hl] at h
      have henv' : env' = scopeSetValue sc n v :: rest := (Except.ok.inj h).symm
      refine ⟨0, sc, rfl, hl, ?_, ?_⟩
      · intro j scj hj
        omega
      · simp [henv']
    · rw [if_neg hl] at h
      cases hr : envSet rest n v with
      | error e =>
        rw [hr] at h
        cases h
      | ok renv =>
        rw [hr] at h
        have henv' : env' = sc :: renv := (Except.ok.inj h).symm
        obtain ⟨k, sck, hget, hsome, hprev, hstruct⟩ := ih n v renv hr
        refine ⟨k + 1, sck, by simpa using hget, hsome, ?_, ?_⟩
        · intro j scj hj hgj
          cases j with
          | zero =>
            have hscj : sc = scj := by simpa using hgj
            subst hscj
            exact Bool.eq_false_iff.mpr hl
          | succ j' =>
            exact hprev j' scj (by omega) (by simpa using hgj)
        · subst henv'
          simp [hstruct]

theorem envSet_envGet : ∀ (env : List Scope) (n : String) (v : VoidValue) (env' : List Scope),
    envSet env n v = .ok env' →
    envGet env' n = (envGet env n).map (fun vb => ⟨vb.type, v⟩) := by
  intro env
  induction env with
  | nil => intro n v env' h; rw [envSet] at h; cases h
  | cons sc rest ih =>
    intro n v env' h
    rw [envSet] at h
    by_cases hl : (sc.lookup n).isSome
    · rw [if_pos hl] at h
      have henv' : env' = scopeSetValue sc n v :: rest := (Except.ok.inj h).symm
      subst henv'
      obtain ⟨vb, hvb⟩ := Option.isSome_iff_exists.mp hl
      rw [envGet, envGet, hvb, lookup_scopeSetValue n v sc vb hvb]
      rfl
    · rw [if_neg hl] at h
      cases hr : envSet rest n v with
      | error e =>
        rw [hr] at h
        cases h
      | ok renv =>
        rw [hr] at h
        have henv' : env' = sc :: renv := (Except.ok.inj h).symm
        subst henv'
        have hnone : sc.lookup n = none := by
          cases hx : sc.lookup n with
          | none => rfl
          | some w => rw [hx] at hl; simp at hl
        rw [envGet, envGet, hnone]
        exact ih n v renv hr

theorem lexLoop_amp_fatal (fuel : Nat) (cs : List Char) (l c : Nat)
    (h : cs.head? ≠ some '&') :
    lexLoop (fuel + 1) ('&' :: cs) l c =
      .error (lexErrMsg "Неожиданный символ: \x27&\x27" l c) := by
  cases cs with
  | nil => rfl
  | cons c2 cs' =>
    have hc2 : ¬ c2 = '&' := fun he => h (by simp [he])
    rw [lexLoop]
    simp [hc2, show isDigitCh '&' = false by decide, show isAlphaCh '&' = false by decide,
      show ¬('&' = lbraceChar) by decide, show ¬('&' = rbraceChar) by decide]

theorem lexLoop_pipe_fatal (fuel : Nat) (cs : List Char) (l c : Nat)
    (h : cs.head? ≠ some '|') :
    lexLoop (fuel + 1) ('|' :: cs) l c =
      .error (lexErrMsg "Неожиданный символ: \x27|\x27" l c) := by
  cases cs with
  | nil => rfl
  | cons c2 cs' =>
    have hc2 : ¬ c2 = '|' := fun he => h (by simp [he])
    rw [lexLoop]
    simp [hc2, show isDigitCh '|' = false by decide, show isAlphaCh '|' = false by decide,
      show ¬('|' = lbraceChar) by decide, show ¬('|' = rbraceChar) by decide]

theorem lexLoop_double_amp (fuel : Nat) (cs : List Char) (l c : Nat) :
    lexLoop (fuel + 1) ('&' :: '&' :: cs) l c =
      (lexLoop fuel cs l (c + 2)).map (createToken .AND "&&" l c :: ·) := by
  rw [lexLoop]
  simp [show isDigitCh '&' = false by decide, show isAlphaCh '&' = false by decide]

theorem lexLoop_double_pipe (fuel : Nat) (cs : List Char) (l c : Nat) :
    lexLoop (fuel + 1) ('|' :: '|' :: cs) l c =
      (lexLoop fuel cs l (c + 2)).map (createToken .OR "||" l c :: ·) := by
  rw [lexLoop]
  simp [show isDigitCh '|' = false by decide, show isAlphaCh '|' = false by decide]

set_option maxHeartbeats 1000000 in
theorem execNode_methodCall (fuel : Nat) (x m ct : String) (args : List AST) (s : EvalState) :
    execNode (fuel + 1) (.methodCall x m ct args) s = execMethodCall fuel x m ct args s := by
  with_unfolding_all rfl

set_option maxHeartbeats 1000000 in
theorem execMethodCall_add_dict (fuel : Nat) (x ty : String) (kE vE : AST)
    (s s1 s2 : EvalState) (id : Nat) (ks vs : List VoidValue) (k v : VoidValue)
    (hget : envGet s.env x = .ok ⟨ty, vdict id ks vs⟩)
    (hk : execNode fuel kE s = .ok (k, s1))
    (hv : execNode fuel vE s1 = .ok (v, s2)) :
    execMethodCall fuel x "add" "dict" [kE, vE] s =
      (envSet s2.env x (vdict id (dictAdd ks vs k v).1 (dictAdd ks vs k v).2)).map
        (fun env' => (vnull, { s2 with env := env' })) := by
  rw [execMethodCall, hget]
  show ((match execNode fuel kE s with
    | .error e => .error e
    | .ok (k, s1) =>
      match execNode fuel vE s1 with
      | .error e => .error e
      | .ok (v, s2) =>
        let kv := dictAdd ks vs k v
        match envSet s2.env x (vdict id kv.1 kv.2) with
        | .error e => .error e
        | .ok env' => .ok (vnull, { s2 with env := env' })) :
      Except String (VoidValue × EvalState)) = _
  rw [hk]
  show ((match execNode fuel vE s1 with
    | .error e => .error e
    | .ok (v, s2) =>
      let kv := dictAdd ks vs k v
      match envSet s2.env x (vdict id kv.1 kv.2) with
      | .error e => .error e
      | .ok env' => .ok (vnull, { s2 with env := env' })) :
      Except String (VoidValue × EvalState)) = _
  rw [hv]
  cases hset : envSet s2.env x (vdict id (dictAdd ks vs k v).1 (dictAdd ks vs k v).2) with
  | error e => simp [hset, Except.map]
  | ok env' => simp [hset, Except.map]

theorem execNode_or_both (fuel : Nat) (l r : AST) (s : EvalState) :
    execNode (fuel + 1) (.binaryExpr "||" l r) s =
      (match execNode fuel l s with
      | .error e => .error e
      | .ok (lv, s1) =>
        match execNode fuel r s1 with
        | .error e => .error e
        | .ok (rv, s2) => .ok (vbool (isTruthy lv || isTruthy rv), s2)) := by
  rw [execNode]
  cases hl : execNode fuel l s with
  | error e => rfl
  | ok p =>
    obtain ⟨lv, s1⟩ := p
    cases hr : execNode fuel r s1 with
    | error e => rfl
    | ok q =>
      obtain ⟨rv, s2⟩ := q
      rfl

theorem stringify_intCast (n : ℤ) : stringify (vnum (n : ℚ)) = intToString n := by
  show ratToString (n : ℚ) = intToString n
  rw [ratToString]
  simp [Rat.den_intCast, Rat.num_intCast]

theorem toInt_intToString (n : ℤ) (s : EvalState) (hb : n.natAbs < 10 ^ 21) :
    applyBuiltin "toInt" [vstr (intToString n)] s = .ok (vnum (n : ℚ), s) := by
  have h1 : applyBuiltin "toInt" [vstr (intToString n)] s
      = .ok (vnum (((jsParseIntChars (intToString n).toList).getD 0 : ℤ) : ℚ), s) := rfl
  rw [h1, jsParseIntChars_intToString n hb]
  rfl

set_option maxHeartbeats 4000000

/-! ## The specification claims -/

/-- C1 (code bug).  The spec's index round-trip invariant — after
`L[i] = v;` the expression `L[i] == v` holds — is broken by the code:
the parser turns `L[0] = 9;` into a plain `AssignVar` whose target is
the synthetic name `L[]` with the parsed index discarded, and the
evaluator, finding no binding named `L[]`, aborts the whole program
with a fatal RuntimeError instead of updating the list. -/
theorem c1_indexed_assignment_drops_index_and_faults :
    parseStmtStr 50 "L[0] = 9;" = .ok (.assignVar "L[]" (.numberLit 9))
    ∧ runVoid 400
        "@VoidApp \"T\"; main() \x7b create:list L = [1,2,3]; L[0] = 9; \x7d @VoidEnd;" [] []
      = .error (undefinedVarMsg "L[]") := by
  constructor
  · with_unfolding_all rfl
  · with_unfolding_all rfl

/-- C2 (counterexample).  The claim says every reachable dict has
pairwise-distinct keys and `length(d)` equals the number of distinct
keys after any sequence of `add:dict` calls — but a dict *literal*
with two equal keys is reachable with zero `add:dict` calls, has keys
`["a", "a"]` that are not pairwise distinct, and reports `length` 2
against 1 distinct key. -/
theorem c2_dict_literal_duplicate_keys_counterexample :
    execNode 9 (.dictLit [(.stringLit "a", .numberLit 1), (.stringLit "a", .numberLit 2)])
        (initState [] [])
      = .ok (vdict 0 [vstr "a", vstr "a"] [vnum 1, vnum 2],
          { initState [] [] with nextId := 1 })
    ∧ keysPairwiseDistinct [vstr "a", vstr "a"] = false
    ∧ countDistinct [vstr "a", vstr "a"] = 1
    ∧ applyBuiltin "length" [vdict 0 [vstr "a", vstr "a"] [vnum 1, vnum 2]] (initState [] [])
      = .ok (vnum 2, initState [] [])
    ∧ runOutput 400
        "@VoidApp \"T\"; main() \x7b create:dict D = \x7b\"a\":1, \"a\":2\x7d; echo(length(D)); \x7d @VoidEnd;"
        [] []
      = .ok [appHeader "T", "", "2", "", appFooter "T"] := by
  refine ⟨?_, ?_, ?_, ?_, ?_⟩ <;> with_unfolding_all rfl

/-- C2 (amended).  `add:dict` preserves key distinctness: starting from
a dict whose keys are pairwise distinct under the evaluator's equality,
any sequence of `add:dict` calls keeps them pairwise distinct, and the
dict's length equals its number of distinct keys.  (The unamended claim
fails only because a dict literal may create duplicate keys, as the
counterexample shows.) -/
theorem c2_add_dict_preserves_key_distinctness (keys vals : List VoidValue)
    (ops : List (VoidValue × VoidValue)) (h : keysPairwiseDistinct keys = true) :
    keysPairwiseDistinct (dictAddMany keys vals ops).1 = true
    ∧ (dictAddMany keys vals ops).1.length = countDistinct (dictAddMany keys vals ops).1 := by
  have hp := dictAddMany_preserves_distinct ops keys vals h
  exact ⟨hp, (countDistinct_eq_length _ hp).symm⟩

/-- C2 witness: a concrete run of the amended theorem. -/
theorem c2_add_dict_preserves_key_distinctness_witness :
    keysPairwiseDistinct
        (dictAddMany [vstr "a"] [vnum 1] [(vstr "b", vnum 2), (vstr "a", vnum 9)]).1 = true
    ∧ (dictAddMany [vstr "a"] [vnum 1] [(vstr "b", vnum 2), (vstr "a", vnum 9)]).1.length
      = countDistinct (dictAddMany [vstr "a"] [vnum 1] [(vstr "b", vnum 2), (vstr "a", vnum 9)]).1 :=
  c2_add_dict_preserves_key_distinctness [vstr "a"] [vnum 1]
    [(vstr "b", vnum 2), (vstr "a", vnum 9)] (by with_unfolding_all rfl)

/-- C3.  `x.add:dict(k:v)` on a dict-typed variable: `findDictKey`
returns the first key position equal to `k` under the evaluator's
equality; when such a position exists `add:dict` overwrites the value
there (keys, hence insertion order, unchanged), otherwise it appends
`(k, v)` at the end; and the evaluator's method-call dispatch reduces
an `add:dict` statement to exactly this dict update written back to the
variable's binding. -/
theorem c3_add_dict_replace_or_append :
    (∀ (ks : List VoidValue) (k : VoidValue) (i : Nat), findDictKey ks k = some i →
      i < ks.length ∧ areEqual (ks.getD i vnull) k = true ∧
        ∀ j, j < i → areEqual (ks.getD j vnull) k = false)
    ∧ (∀ (ks : List VoidValue) (k : VoidValue), findDictKey ks k = none →
        ∀ k0 ∈ ks, areEqual k0 k = false)
    ∧ (∀ (ks vs : List VoidValue) (k v : VoidValue) (i : Nat), findDictKey ks k = some i →
        dictAdd ks vs k v = (ks, vs.set i v))
    ∧ (∀ (ks vs : List VoidValue) (k v : VoidValue), findDictKey ks k = none →
        dictAdd ks vs k v = (ks ++ [k], vs ++ [v]))
    ∧ (∀ (fuel : Nat) (x m ct : String) (args : List AST) (s : EvalState),
        execNode (fuel + 1) (.methodCall x m ct args) s = execMethodCall fuel x m ct args s)
    ∧ (∀ (fuel : Nat) (x ty : String) (kE vE : AST) (s s1 s2 : EvalState) (id : Nat)
        (ks vs : List VoidValue) (k v : VoidValue),
        envGet s.env x = .ok ⟨ty, vdict id ks vs⟩ →
        execNode fuel kE s = .ok (k, s1) →
        execNode fuel vE s1 = .ok (v, s2) →
        execMethodCall fuel x "add" "dict" [kE, vE] s =
          (envSet s2.env x (vdict id (dictAdd ks vs k v).1 (dictAdd ks vs k v).2)).map
            (fun env' => (vnull, { s2 with env := env' }))) :=
  ⟨findDictKey_some_spec, fun ks k h => (findDictKey_none_iff ks k).mp h,
    dictAdd_replace, dictAdd_append, execNode_methodCall, execMethodCall_add_dict⟩

/-- C3 witness: replacing the value of the existing key `"a"` in the
one-entry dict bound to `D`. -/
theorem c3_add_dict_replace_or_append_witness :
    execMethodCall 1 "D" "add" "dict" [.stringLit "a", .numberLit 9]
        ⟨[[("D", ⟨"dict", vdict 0 [vstr "a"] [vnum 1]⟩)]], [], [], [], 1⟩ =
      (envSet [[("D", ⟨"dict", vdict 0 [vstr "a"] [vnum 1]⟩)]] "D"
          (vdict 0 (dictAdd [vstr "a"] [vnum 1] (vstr "a") (vnum 9)).1
            (dictAdd [vstr "a"] [vnum 1] (vstr "a") (vnum 9)).2)).map
        (fun env' =>
          (vnull,
            ({ env := env', input := [], output := [], host := [], nextId := 1 } : EvalState))) :=
  c3_add_dict_replace_or_append.2.2.2.2.2 1 "D" "dict" (.stringLit "a") (.numberLit 9)
    ⟨[[("D", ⟨"dict", vdict 0 [vstr "a"] [vnum 1]⟩)]], [], [], [], 1⟩
    ⟨[[("D", ⟨"dict", vdict 0 [vstr "a"] [vnum 1]⟩)]], [], [], [], 1⟩
    ⟨[[("D", ⟨"dict", vdict 0 [vstr "a"] [vnum 1]⟩)]], [], [], [], 1⟩
    0 [vstr "a"] [vnum 1] (vstr "a") (vnum 9)
    (by with_unfolding_all rfl) (by with_unfolding_all rfl) (by with_unfolding_all rfl)

/-- C4.  `*` binds tighter than `+`, `**` is right-associative, and
parentheses override precedence — both at the AST level and in the
printed results `7`, `512` and `9`. -/
theorem c4_operator_precedence :
    parseExprStr 60 "1 + 2 * 3"
      = .ok (.binaryExpr "+" (.numberLit 1) (.binaryExpr "*" (.numberLit 2) (.numberLit 3)))
    ∧ parseExprStr 60 "2 ** 3 ** 2"
      = .ok (.binaryExpr "**" (.numberLit 2) (.binaryExpr "**" (.numberLit 3) (.numberLit 2)))
    ∧ parseExprStr 60 "(1+2)*3"
      = .ok (.binaryExpr "*" (.binaryExpr "+" (.numberLit 1) (.numberLit 2)) (.numberLit 3))
    ∧ runOutput 400 "@VoidApp \"T\"; main() \x7b echo(1 + 2 * 3); \x7d @VoidEnd;" [] []
      = .ok [appHeader "T", "", "7", "", appFooter "T"]
    ∧ runOutput 400 "@VoidApp \"T\"; main() \x7b echo(2 ** 3 ** 2); \x7d @VoidEnd;" [] []
      = .ok [appHeader "T", "", "512", "", appFooter "T"]
    ∧ runOutput 400 "@VoidApp \"T\"; main() \x7b echo((1+2)*3); \x7d @VoidEnd;" [] []
      = .ok [appHeader "T", "", "9", "", appFooter "T"] := by
  refine ⟨?_, ?_, ?_, ?_, ?_, ?_⟩ <;> with_unfolding_all rfl

/-- C5.  `&&` and `||` evaluate both operands unconditionally and
combine their truthiness — no short-circuiting.  The closed instances
show the side effect of the right operand happening although the left
operand already decides the boolean: `false && write("p")` still prints
the prompt and consumes a line of input, as does `true || write("q")`. -/
theorem c5_logical_ops_no_short_circuit :
    (∀ (fuel : Nat) (l r : AST) (s : EvalState),
      execNode (fuel + 1) (.binaryExpr "&&" l r) s =
        (match execNode fuel l s with
        | .error e => .error e
        | .ok (lv, s1) =>
          match execNode fuel r s1 with
          | .error e => .error e
          | .ok (rv, s2) => .ok (vbool (isTruthy lv && isTruthy rv), s2)))
    ∧ (∀ (fuel : Nat) (l r : AST) (s : EvalState),
      execNode (fuel + 1) (.binaryExpr "||" l r) s =
        (match execNode fuel l s with
        | .error e => .error e
        | .ok (lv, s1) =>
          match execNode fuel r s1 with
          | .error e => .error e
          | .ok (rv, s2) => .ok (vbool (isTruthy lv || isTruthy rv), s2)))
    ∧ execNode 5 (.binaryExpr "&&" (.boolLit false) (.writeExpr (.stringLit "p")))
        (initState ["ans"] [])
      = .ok (vbool false, ⟨[([] : Scope)], [], ["p"], [], 0⟩)
    ∧ execNode 5 (.binaryExpr "||" (.boolLit true) (.writeExpr (.stringLit "q")))
        (initState ["ans"] [])
      = .ok (vbool true, ⟨[([] : Scope)], [], ["q"], [], 0⟩) :=
  ⟨execNode_and_both, execNode_or_both, by with_unfolding_all rfl, by with_unfolding_all rfl⟩

/-- C6 (counterexample).  `toBool(toString(b))` does *not* return `b`
for `b = false`: `toString(false)` is the non-empty string `"false"`,
and `toBool` of any non-empty string is `true`. -/
theorem c6_toBool_toString_false_counterexample :
    applyBuiltin "toString" [vbool false] (initState [] [])
      = .ok (vstr "false", initState [] [])
    ∧ applyBuiltin "toBool" [vstr "false"] (initState [] [])
      = .ok (vbool true, initState [] [])
    ∧ runOutput 400 "@VoidApp \"T\"; main() \x7b echo(toBool(toString(false))); \x7d @VoidEnd;"
        [] []
      = .ok [appHeader "T", "", "true", "", appFooter "T"] := by
  refine ⟨?_, ?_, ?_⟩ <;> with_unfolding_all rfl

/-- C6 (amended).  `toString` of an int is the host `String(n)`
rendering — pure decimal for `|n| < 10^21`, exponential notation from
`10^21` on — and `toInt` parses the decimal rendering back to the same
int, so the round-trip holds exactly for `|n| < 10^21`; at the host
threshold the rendering is `"1e+21"` and `parseInt` stops at the `e`,
so `toInt(toString(10^21))` is `1`.  For bools the round-trip holds for
`true` but not for `false`, since `toBool` maps both `"true"` and
`"false"` to `true` (string truthiness is non-emptiness). -/
theorem c6_scalar_stringify_roundtrip_amended :
    (∀ (n : ℤ) (s : EvalState),
      applyBuiltin "toString" [vnum (n : ℚ)] s = .ok (vstr (intToString n), s))
    ∧ (∀ (n : ℤ) (s : EvalState), n.natAbs < 10 ^ 21 →
      applyBuiltin "toInt" [vstr (intToString n)] s = .ok (vnum (n : ℚ), s))
    ∧ intToString (10 ^ 21) = "1e+21"
    ∧ (∀ s : EvalState,
      applyBuiltin "toInt" [vstr (intToString (10 ^ 21))] s = .ok (vnum 1, s))
    ∧ (∀ s : EvalState,
      applyBuiltin "toBool" [vstr (stringify (vbool true))] s = .ok (vbool true, s))
    ∧ (∀ s : EvalState,
      applyBuiltin "toBool" [vstr (stringify (vbool false))] s = .ok (vbool true, s)) := by
  refine ⟨?_, toInt_intToString, by with_unfolding_all rfl,
    fun s => by with_unfolding_all rfl, fun s => by with_unfolding_all rfl,
    fun s => by with_unfolding_all rfl⟩
  intro n s
  have h1 : applyBuiltin "toString" [vnum (n : ℚ)] s
      = .ok (vstr (stringify (vnum (n : ℚ))), s) := rfl
  rw [h1, stringify_intCast]

/-- C6 witness: the bounded round-trip at the concrete int 42. -/
theorem c6_scalar_stringify_roundtrip_amended_witness :
    applyBuiltin "toInt" [vstr (intToString 42)] (initState [] [])
      = .ok (vnum ((42 : ℤ) : ℚ), initState [] []) :=
  c6_scalar_stringify_roundtrip_amended.2.1 42 (initState [] []) (by decide)

/-- C7.  Loop safety: for every while loop and every for loop, in any
state and under any fuel budget, either the loop's iteration counter
never passes the 1,000,000 ceiling, or the loop aborts with exactly the
fatal max-iteration RuntimeError, its counter stopped at 1,000,001.
Since the counter counts completed body executions, no loop body ever
runs more than 1,000,000 times without the fatal abort. -/
theorem c7_loop_iteration_ceiling (fuel : Nat) (cond body : AST) (update : Option AST)
    (s : EvalState) :
    ((whileAux fuel cond body s 0).2 ≤ maxIterations ∨
      ((whileAux fuel cond body s 0).1 = .error whileMaxIterMsg ∧
        (whileAux fuel cond body s 0).2 = maxIterations + 1))
    ∧ ((forAux fuel cond update body s 0).2 ≤ maxIterations ∨
      ((forAux fuel cond update body s 0).1 = .error forMaxIterMsg ∧
        (forAux fuel cond update body s 0).2 = maxIterations + 1)) :=
  ⟨whileAux_bound fuel cond body s 0 (Nat.zero_le _),
    forAux_bound fuel cond update body s 0 (Nat.zero_le _)⟩

/-- C8.  The environment contract: `define` fails exactly when the name
is already bound in the *current* scope (bindings in ancestors are
irrelevant); `get` and `set` fail exactly when no scope on the chain
binds the name; a successful `set` rewrites the nearest scope that
binds the name — every nearer scope is unbound for it and every other
scope is untouched — and afterwards `get` sees the new value under the
unchanged declared type. -/
theorem c8_environment_contract :
    (∀ (sc : Scope) (rest : List Scope) (n ty : String) (v : VoidValue),
      (∃ e, envDefine (sc :: rest) n ty v = .error e) ↔ (sc.lookup n).isSome = true)
    ∧ (∀ (env : List Scope) (n : String),
      (∃ e, envGet env n = .error e) ↔ envHas env n = false)
    ∧ (∀ (env : List Scope) (n : String) (v : VoidValue),
      (∃ e, envSet env n v = .error e) ↔ envHas env n = false)
    ∧ (∀ (env : List Scope) (n : String) (v : VoidValue) (env' : List Scope),
      envSet env n v = .ok env' →
      ∃ k sc, env.get? k = some sc ∧ (sc.lookup n).isSome = true ∧
        (∀ j scj, j < k → env.get? j = some scj → (scj.lookup n).isSome = false) ∧
        env' = env.take k ++ scopeSetValue sc n v :: env.drop (k + 1))
    ∧ (∀ (env : List Scope) (n : String) (v : VoidValue) (env' : List Scope),
      envSet env n v = .ok env' →
      envGet env' n = (envGet env n).map (fun vb => ⟨vb.type, v⟩)) :=
  ⟨envDefine_error_iff, envGet_error_iff, envSet_error_iff, envSet_nearest, envSet_envGet⟩

/-- C8 witness: setting `x` with a shadowed binding updates the inner
scope and `get` sees the new value. -/
theorem c8_environment_contract_witness :
    envGet [[("x", ⟨"int", vnum 9⟩)], [("x", ⟨"int", vnum 2⟩)]] "x" =
      (envGet [[("x", ⟨"int", vnum 1⟩)], [("x", ⟨"int", vnum 2⟩)]] "x").map
        (fun vb => ⟨vb.type, vnum 9⟩) :=
  c8_environment_contract.2.2.2.2
    [[("x", ⟨"int", vnum 1⟩)], [("x", ⟨"int", vnum 2⟩)]] "x" (vnum 9)
    [[("x", ⟨"int", vnum 9⟩)], [("x", ⟨"int", vnum 2⟩)]] (by with_unfolding_all rfl)

/-- C9 (counterexample).  A `&` not followed by `&` (and a `|` not
followed by `|`) does *not* lex to a one-character operator token: the
single-character switch has no case for `&` or `|`, so the lexer raises
the fatal unexpected-character error. -/
theorem c9_lone_ampersand_counterexample :
    tokenize "a & b" = .error (lexErrMsg "Неожиданный символ: \x27&\x27" 1 3)
    ∧ tokenize "x | y" = .error (lexErrMsg "Неожиданный символ: \x27|\x27" 1 3) := by
  constructor
  · with_unfolding_all rfl
  · with_unfolding_all rfl

/-- C9 (amended).  In any lexer state, a `&` whose successor is not `&`
(resp. a `|` whose successor is not `|`) is fatal with the
unexpected-character LexerError at its own position — there is no
one-character token for `&` or `|` — while `&&` and `||` lex to the
two-character AND/OR tokens. -/
theorem c9_lone_amp_pipe_fatal :
    (∀ (fuel : Nat) (cs : List Char) (l c : Nat), cs.head? ≠ some '&' →
      lexLoop (fuel + 1) ('&' :: cs) l c =
        .error (lexErrMsg "Неожиданный символ: \x27&\x27" l c))
    ∧ (∀ (fuel : Nat) (cs : List Char) (l c : Nat), cs.head? ≠ some '|' →
      lexLoop (fuel + 1) ('|' :: cs) l c =
        .error (lexErrMsg "Неожиданный символ: \x27|\x27" l c))
    ∧ (∀ (fuel : Nat) (cs : List Char) (l c : Nat),
      lexLoop (fuel + 1) ('&' :: '&' :: cs) l c =
        (lexLoop fuel cs l (c + 2)).map (createToken .AND "&&" l c :: ·))
    ∧ (∀ (fuel : Nat) (cs : List Char) (l c : Nat),
      lexLoop (fuel + 1) ('|' :: '|' :: cs) l c =
        (lexLoop fuel cs l (c + 2)).map (createToken .OR "||" l c :: ·)) :=
  ⟨lexLoop_amp_fatal, lexLoop_pipe_fatal, lexLoop_double_amp, lexLoop_double_pipe⟩

/-- C9 witness: the amended theorem at a concrete lexer state. -/
theorem c9_lone_amp_pipe_fatal_witness :
    lexLoop 1 ['&'] 1 1 = .error (lexErrMsg "Неожиданный символ: \x27&\x27" 1 1) :=
  c9_lone_amp_pipe_fatal.1 0 [] 1 1 (by decide)

/-- C10.  The evaluator's number coercion returns 0, without error, for
every value of object `typeof` — null, lists and dicts — so ordering
comparisons and the coercing arithmetic operators silently treat such
an operand as the number 0: `null < 1` is `true`, `null - 5` is `-5`,
`[3] * 7` is `0`, a dict dividend yields `0`, `null % 3` is `0`,
`3 ** null` is `1`, and `[] >= 0` is `true`. -/
theorem c10_null_list_dict_coerce_to_zero :
    (∀ v : VoidValue, jsTypeof v = "object" → toNumber v = .ok 0)
    ∧ applyBinOp "<" vnull (vnum 1) 0 = .ok (vbool true, 0)
    ∧ applyBinOp "-" vnull (vnum 5) 0 = .ok (vnum (-5), 0)
    ∧ applyBinOp "*" (vlist 0 [vnum 3]) (vnum 7) 0 = .ok (vnum 0, 0)
    ∧ applyBinOp "/" (vdict 0 [] []) (vnum 4) 0 = .ok (vnum 0, 0)
    ∧ applyBinOp "%" vnull (vnum 3) 0 = .ok (vnum 0, 0)
    ∧ applyBinOp "**" (vnum 3) vnull 0 = .ok (vnum 1, 0)
    ∧ applyBinOp ">=" (vlist 1 []) (vnum 0) 0 = .ok (vbool true, 0) := by
  refine ⟨?_, ?_, ?_, ?_, ?_, ?_, ?_, ?_⟩
  · intro v h
    cases v with
    | vnull => rfl
    | vbool b => simp [jsTypeof] at h
    | vnum q => simp [jsTypeof] at h
    | vstr s => simp [jsTypeof] at h
    | vlist id es => rfl
    | vdict id ks vs => rfl
  all_goals with_unfolding_all rfl

/-- C10 witness: a dict value coerces to 0 without raising. -/
theorem c10_null_list_dict_coerce_to_zero_witness :
    toNumber (vdict 3 [vnull] [vnum 7]) = .ok 0 :=
  c10_null_list_dict_coerce_to_zero.1 (vdict 3 [vnull] [vnum 7]) rfl
